import Mathlib

/-
Verification of the mysqlstmt condition-expression engine.

This file shallowly embeds the core of the library:
  - `Stmt.pickle`, `Stmt.quote`, `Stmt.quote_col_ref`, `Stmt.parameterize_values`
    (from src/mysqlstmt/stmt.py), and
  - `WhereCondition` with its registration methods and its `sql` renderer
    (from src/mysqlstmt/where_condition.py).

Modelling choices:
  - SQL text is represented as a list of tokens (`Tok`): plain text chunks and
    placeholder occurrences.  The Python code appends the placeholder string
    (for example "?") into the same string list as literal text; the token
    model keeps the two apart so that "the k-th placeholder occurrence in the
    rendered text" is well defined.  Rendering tokens with a concrete
    placeholder string (`renderToks`) recovers the exact Python string.
  - Python scalars are the constructors of `PickleVal`.  Python's `int`/`float`
    branch is modelled by `int` (decimal text, not parameterizable); datetimes
    carry a microsecond field exactly as `datetime.datetime`/`datetime.time` do.
  - A subquery (`where_select`) is modelled at the `Stmt.sql` interface it is
    consumed through: a pre-rendered token list together with its parameter
    list and its own placeholder flag.
-/

set_option maxHeartbeats 1000000

/-- A chunk of rendered SQL: literal text, or one occurrence of the
configured placeholder token. -/
inductive Tok where
  | text (s : String)
  | ph
  deriving DecidableEq, Repr

/-- `True` exactly on the placeholder token. -/
def Tok.isPh : Tok → Bool
  | .ph => true
  | .text _ => false

/-- Number of placeholder occurrences in a token list. -/
def phCount (ts : List Tok) : Nat :=
  (ts.filter Tok.isPh).length

/-- Number of placeholder occurrences in an optional token list
(`none` is the "Absent" render result and has no placeholders). -/
def phCountO : Option (List Tok) → Nat
  | none => 0
  | some ts => phCount ts

/-- The text a single token contributes to the rendered SQL string, with
`phs` standing for the placeholder token. -/
def tokStr (phs : String) : Tok → String
  | .text s => s
  | .ph => phs

/-- Render a token list to the concrete SQL string, using `phs` for the
placeholder token (the Python code inlines `self.placeholder` directly). -/
def renderToks (phs : String) : List Tok → String
  | [] => ""
  | t :: ts => tokStr phs t ++ renderToks phs ts

/-- The backtick character, written by code point to keep sources plain. -/
def graveChar : Char := Char.ofNat 96

/-- The single-quote character. -/
def squoteChar : Char := Char.ofNat 39

/-- The backslash character. -/
def backslashChar : Char := Char.ofNat 92

/-- Python scalar values accepted by `Stmt.pickle`
(src/mysqlstmt/stmt.py, `StmtPickleT`).  `datetime`/`time` carry a
microsecond component exactly as Python's `datetime` objects do; `int`
stands for Python's numeric (`int`/`float`) branch; `obj` stands for the
fallback `str(val)` branch for any other object. -/
inductive PickleVal where
  | null
  | bool (b : Bool)
  | int (n : Int)
  | str (s : String)
  | datetime (y mo d h mi s us : Nat)
  | date (y mo d : Nat)
  | time (h mi s us : Nat)
  | obj (s : String)
  deriving DecidableEq, Repr

/-- Two zero-padded decimal digits, as `strftime` "%m"/"%d"/"%H"/"%M"/"%S"
produce for in-range values. -/
def fmt2 (n : Nat) : List Char :=
  [Nat.digitChar (n / 10), Nat.digitChar (n % 10)]

/-- Four zero-padded decimal digits, as `strftime` "%Y" produces for
`datetime` years (which are between 1 and 9999). -/
def fmt4 (n : Nat) : List Char :=
  [Nat.digitChar (n / 1000), Nat.digitChar (n / 100 % 10),
   Nat.digitChar (n / 10 % 10), Nat.digitChar (n % 10)]

/-- `strftime("%Y-%m-%d")` (src/mysqlstmt/stmt.py line 163). -/
def strftimeDate (y mo d : Nat) : String :=
  String.mk (fmt4 y ++ '-' :: fmt2 mo ++ '-' :: fmt2 d)

/-- `strftime("%H:%M:%S")` (src/mysqlstmt/stmt.py line 165). -/
def strftimeTime (h mi s : Nat) : String :=
  String.mk (fmt2 h ++ ':' :: fmt2 mi ++ ':' :: fmt2 s)

/-- `strftime("%Y-%m-%d %H:%M:%S")` (src/mysqlstmt/stmt.py line 161). -/
def strftimeDateTime (y mo d h mi s : Nat) : String :=
  String.mk (fmt4 y ++ '-' :: fmt2 mo ++ '-' :: fmt2 d ++ ' ' ::
    (fmt2 h ++ ':' :: fmt2 mi ++ ':' :: fmt2 s))

/-- `Stmt.pickle` (src/mysqlstmt/stmt.py lines 141-166): convert a value
into literal SQL text together with a flag saying whether the value should
be parameterized.  The `strftime` formats drop the microsecond component of
`datetime`/`time` values, exactly as the Python code does. -/
def Stmt.pickle : PickleVal → String × Bool
  | .null => ("NULL", false)
  | .bool true => ("1", false)
  | .bool false => ("0", false)
  | .str s => (s, true)
  | .int n => (toString n, false)
  | .datetime y mo d h mi s _us => (strftimeDateTime y mo d h mi s, true)
  | .date y mo d => (strftimeDate y mo d, true)
  | .time h mi s _us => (strftimeTime h mi s, true)
  | .obj s => (s, true)

/-- Escape embedded single quotes with a backslash
(`val.replace("'", "\\'")` in src/mysqlstmt/stmt.py line 183). -/
def escapeQuotes : List Char → List Char
  | [] => []
  | c :: rest =>
      if c = squoteChar then backslashChar :: squoteChar :: escapeQuotes rest
      else c :: escapeQuotes rest

/-- `Stmt.quote` (src/mysqlstmt/stmt.py lines 168-183): wrap a string in
single quotes, backslash-escaping embedded single quotes. -/
def Stmt.quote (val : String) : String :=
  String.mk (squoteChar :: escapeQuotes val.data ++ [squoteChar])

/-- Per-statement configuration consumed by the core
(`Stmt.__init__` / `Config`, src/mysqlstmt/stmt.py lines 33-67).
`placeholder = none` models both `False` and `None` resolving to a disabled
placeholder. -/
structure StmtCfg where
  placeholder : Option String
  quote_all_values : Bool
  quote_all_col_refs : Bool
  deriving DecidableEq, Repr

/-- Python truthiness of `self.placeholder` (an empty string is falsy). -/
def StmtCfg.phOn (cfg : StmtCfg) : Bool :=
  match cfg.placeholder with
  | some s => !s.isEmpty
  | none => false

/-- The library defaults from src/mysqlstmt/config.py:
placeholder "?", quote_all_values false, quote_all_col_refs true. -/
def cfgDefault : StmtCfg :=
  { placeholder := some "?", quote_all_values := false, quote_all_col_refs := true }

/-- `cfgDefault` with parameterization disabled (placeholder `False`/`None`). -/
def cfgNoPh : StmtCfg :=
  { placeholder := none, quote_all_values := false, quote_all_col_refs := true }

/-- The string a placeholder token renders to under `cfg`: the configured
placeholder, or the empty string when parameterization is disabled (a
disabled placeholder has no token text). -/
def phStr (cfg : StmtCfg) : String :=
  cfg.placeholder.getD ""

/-- Split a character list at the first '.', as Python `s.split(".", 1)`
does when it finds a separator (`none` when there is no '.'). -/
def splitFirstDot : List Char → Option (List Char × List Char)
  | [] => none
  | c :: rest =>
      if c = '.' then some ([], rest)
      else
        match splitFirstDot rest with
        | some (pre, post) => some (c :: pre, post)
        | none => none

/-- `Stmt.quote_col_ref` (src/mysqlstmt/stmt.py lines 112-139): quote a
column reference with backticks unless it contains '*', ' ', '(' or a
backtick; a "table.column" reference quotes only the column part. -/
def Stmt.quote_col_ref (cfg : StmtCfg) (col_ref : String) : String :=
  if cfg.quote_all_col_refs then
    if col_ref.data.any (fun c => c = '*' ∨ c = ' ' ∨ c = '(' ∨ c = graveChar) then
      col_ref
    else
      match splitFirstDot col_ref.data with
      | some (table, col) =>
          String.mk table ++ "." ++ "`" ++ String.mk col ++ "`"
      | none => "`" ++ col_ref ++ "`"
  else col_ref

/-- A right-hand side for `where_value`: a scalar, or a non-string sequence
of scalars (`WhereValueT` in src/mysqlstmt/where_condition.py). -/
inductive WhereValue where
  | scalar (v : PickleVal)
  | seq (vs : List PickleVal)
  deriving DecidableEq, Repr

/-- The scalars reached by `Stmt.parameterize_values` when it recurses
element-wise through a sequence. -/
def WhereValue.flat : WhereValue → List PickleVal
  | .scalar v => [v]
  | .seq vs => vs

/-- Error message raised by `Stmt.parameterize_values` when both sinks are
absent (src/mysqlstmt/stmt.py line 236). -/
def errBothSinksNone : String :=
  "Either 'inline_values' or 'param_values' arguments must not be None"

/-- The scalar case of `Stmt.parameterize_values`
(src/mysqlstmt/stmt.py lines 219-237).  The two sinks are threaded
functionally: `none` models passing Python `None`, `some l` models a list
the Python code mutates in place. -/
def Stmt.parameterize_scalar (cfg : StmtCfg) (val : PickleVal)
    (inline_values : Option (List Tok)) (param_values : Option (List String)) :
    Except String (Option (List Tok) × Option (List String)) :=
  let using_placeholder : Bool := param_values.isSome && cfg.phOn
  let quote : Bool := if using_placeholder then false else cfg.quote_all_values
  let (text, can_paramize_val) := Stmt.pickle val
  match inline_values with
  | some il =>
      if can_paramize_val && param_values.isSome && cfg.phOn then
        .ok (some (il ++ [Tok.ph]), some ((param_values.getD []) ++ [text]))
      else if can_paramize_val && quote then
        .ok (some (il ++ [Tok.text (Stmt.quote text)]), param_values)
      else
        .ok (some (il ++ [Tok.text text]), param_values)
  | none =>
      match param_values with
      | some ps => .ok (none, some (ps ++ [text]))
      | none => .error errBothSinksNone

/-- The sequence case of `Stmt.parameterize_values`: recurse element-wise
in order (src/mysqlstmt/stmt.py lines 216-218). -/
def Stmt.parameterize_list (cfg : StmtCfg) :
    List PickleVal → Option (List Tok) → Option (List String) →
    Except String (Option (List Tok) × Option (List String))
  | [], il, ps => .ok (il, ps)
  | v :: vs, il, ps => do
      let (il, ps) ← Stmt.parameterize_scalar cfg v il ps
      Stmt.parameterize_list cfg vs il ps

/-- `Stmt.parameterize_values` (src/mysqlstmt/stmt.py lines 198-237):
dispatch on "non-string sequence" versus scalar. -/
def Stmt.parameterize_values (cfg : StmtCfg) (list_or_value : WhereValue)
    (inline_values : Option (List Tok)) (param_values : Option (List String)) :
    Except String (Option (List Tok) × Option (List String)) :=
  match list_or_value with
  | .seq vs => Stmt.parameterize_list cfg vs inline_values param_values
  | .scalar v => Stmt.parameterize_scalar cfg v inline_values param_values

/-- The interface through which `WhereCondition.sql` consumes a subquery
(`stmt.sql()` in src/mysqlstmt/where_condition.py line 510): the rendered
SQL of the SELECT, its parameter list, and whether the subquery statement
has a placeholder configured. -/
structure SubStmt where
  placeholderOn : Bool
  sqlToks : List Tok
  sqlParams : List String
  deriving DecidableEq, Repr

/-- One entry of `WhereCondition._values`: (field, (value, operator)). -/
structure ValuePred where
  field : String
  value : WhereValue
  op : String
  deriving DecidableEq, Repr

/-- One entry of `WhereCondition._values_raw`:
(field, (raw_value, operator, value_params)).  The caller-supplied raw text
is carried as tokens so its explicit placeholder occurrences are visible. -/
structure RawPred where
  field : String
  rawToks : List Tok
  op : String
  valParams : Option (List PickleVal)
  deriving DecidableEq, Repr

/-- One entry of `WhereCondition._raw_exprs`: (expr, expr_params). -/
structure ExprPred where
  toks : List Tok
  exprParams : Option (List String)
  deriving DecidableEq, Repr

/-- One entry of `WhereCondition._selects`:
(field, (Select, operator, value_params)). -/
structure SelectPred where
  field : String
  sub : SubStmt
  op : String
  valParams : Option (List PickleVal)
  deriving DecidableEq, Repr

mutual
/-- `WhereCondition` (src/mysqlstmt/where_condition.py).  `isOr` is the
predicate chosen at construction ('AND' stores per-field map semantics,
'OR' stores list semantics — both iterate in insertion order, so one
ordered list of entries represents either; the difference shows up in the
registration functions below).  `conds` are the nested conditions. -/
inductive WhereCondition where
  | mk (isOr : Bool) (negate : Bool)
      (values : List ValuePred)
      (valuesRaw : List RawPred)
      (rawExprs : List ExprPred)
      (selects : List SelectPred)
      (conds : WhereConditions)
  deriving DecidableEq, Repr

/-- The list `WhereCondition._conds` of nested conditions. -/
inductive WhereConditions where
  | nil
  | cons (head : WhereCondition) (tail : WhereConditions)
  deriving DecidableEq, Repr
end

namespace WhereCondition

/-- The 'OR'/'AND' flag of a node. -/
def isOr : WhereCondition → Bool
  | .mk o _ _ _ _ _ _ => o

/-- The `negate` flag of a node. -/
def negate : WhereCondition → Bool
  | .mk _ n _ _ _ _ _ => n

/-- The `_values` collection of a node. -/
def values : WhereCondition → List ValuePred
  | .mk _ _ v _ _ _ _ => v

/-- The `_values_raw` collection of a node. -/
def valuesRaw : WhereCondition → List RawPred
  | .mk _ _ _ vr _ _ _ => vr

/-- The `_raw_exprs` collection of a node. -/
def rawExprs : WhereCondition → List ExprPred
  | .mk _ _ _ _ re _ _ => re

/-- The `_selects` collection of a node. -/
def selects : WhereCondition → List SelectPred
  | .mk _ _ _ _ _ se _ => se

/-- The `_conds` nested conditions of a node. -/
def conds : WhereCondition → WhereConditions
  | .mk _ _ _ _ _ _ cs => cs

/-- The separator `self._predicate` = " AND " or " OR "
(src/mysqlstmt/where_condition.py line 94). -/
def predStr (c : WhereCondition) : String :=
  if c.isOr then " OR " else " AND "

end WhereCondition

/-- Number of conditions in a `WhereConditions` list. -/
def WhereConditions.length : WhereConditions → Nat
  | .nil => 0
  | .cons _ tail => tail.length + 1

mutual
/-- `WhereCondition.has_conds` (src/mysqlstmt/where_condition.py lines
146-156): true when the node has any value or nested condition that will
result in an expression. -/
def WhereCondition.has_conds : WhereCondition → Bool
  | .mk _ _ v vr re se cs =>
      !v.isEmpty || !vr.isEmpty || !re.isEmpty || !se.isEmpty ||
        WhereConditions.anyHasConds cs

/-- `any(cond.has_conds for cond in self._conds)`. -/
def WhereConditions.anyHasConds : WhereConditions → Bool
  | .nil => false
  | .cons c cs => c.has_conds || WhereConditions.anyHasConds cs
end

mutual
/-- `WhereCondition.expr_count` (src/mysqlstmt/where_condition.py lines
132-144): leaf predicate counts plus one for every nested condition with
`has_conds`. -/
def WhereCondition.expr_count : WhereCondition → Nat
  | .mk _ _ v vr re se cs =>
      v.length + vr.length + re.length + se.length +
        WhereConditions.exprCountConds cs

/-- The `for cond in self._conds: if cond.has_conds: c += 1` loop. -/
def WhereConditions.exprCountConds : WhereConditions → Nat
  | .nil => 0
  | .cons c cs =>
      (if c.has_conds then 1 else 0) + WhereConditions.exprCountConds cs
end

/-- Join SQL fragments with a textual separator, as
`self._predicate.join(sql)` does (src/mysqlstmt/where_condition.py
line 520).  A single fragment is returned unchanged. -/
def joinFrags (sep : String) : List (List Tok) → List Tok
  | [] => []
  | [f] => f
  | f :: fs => f ++ Tok.text sep :: joinFrags sep fs

/-- Body of the `for field_or_tuple in self._values` loop
(src/mysqlstmt/where_condition.py lines 426-468).  Returns the emitted
fragment and the updated shared parameter list; the `.error` result models
the `IndexError` Python raises at `inline_values[0]` when the inline list
is empty. -/
def valuePredSql (cfg : StmtCfg) (p : ValuePred) (param_values : List String) :
    Except String (List Tok × List String) := do
  let fieldQ := Stmt.quote_col_ref cfg p.field
  let (ilOpt, psOpt) ←
    Stmt.parameterize_values cfg p.value (some []) (some param_values)
  let inline_values := ilOpt.getD []
  let param_values := psOpt.getD []
  let (valToks, op) ←
    match p.value with
    | .seq vs =>
        if 1 < vs.length then
          .ok (Tok.text "(" :: inline_values.intersperse (Tok.text ", ") ++ [Tok.text ")"],
            if p.op = "=" then "IN" else if p.op = "<>" then "NOT IN" else p.op)
        else
          match inline_values with
          | [] => .error "IndexError: list index out of range"
          | t :: _ =>
              .ok ([t],
                if p.op = "IN" then "=" else if p.op = "NOT IN" then "<>" else p.op)
    | .scalar _ =>
        match inline_values with
        | [] => .error "IndexError: list index out of range"
        | t :: _ => .ok ([t], p.op)
  let op :=
    if valToks = [Tok.text "NULL"] ∨ valToks = [Tok.text "NOT NULL"] then
      if op = "=" then "IS" else if op = "<>" then "IS NOT" else op
    else op
  .ok (Tok.text (fieldQ ++ " " ++ op ++ " ") :: valToks, param_values)

/-- Body of the `for field_or_tuple in self._values_raw` loop
(src/mysqlstmt/where_condition.py lines 470-486): bind params are pickled
and appended only when the statement placeholder is truthy; the fragment is
`quoted(field) op raw_text` verbatim. -/
def rawPredSql (cfg : StmtCfg) (p : RawPred) (param_values : List String) :
    List Tok × List String :=
  let param_values :=
    match p.valParams with
    | some vps =>
        if cfg.phOn then param_values ++ vps.map (fun v => (Stmt.pickle v).1)
        else param_values
    | none => param_values
  (Tok.text (Stmt.quote_col_ref cfg p.field ++ " " ++ p.op ++ " ") :: p.rawToks,
    param_values)

/-- Body of the `for expr_tuple in self._raw_exprs` loop
(src/mysqlstmt/where_condition.py lines 488-492): the fragment verbatim;
params are extended (unpickled) only when the placeholder is truthy. -/
def exprPredSql (cfg : StmtCfg) (p : ExprPred) (param_values : List String) :
    List Tok × List String :=
  (p.toks,
    match p.exprParams with
    | some eps => if cfg.phOn then param_values ++ eps else param_values
    | none => param_values)

/-- Body of the `for field_or_tuple in self._selects` loop
(src/mysqlstmt/where_condition.py lines 494-515): pickled value params
first (gated on the outer placeholder), then the subquery's own params
(gated on the subquery's placeholder), then the fragment
`quoted(field) op (subquery_sql)`. -/
def selectPredSql (cfg : StmtCfg) (p : SelectPred) (param_values : List String) :
    List Tok × List String :=
  let param_values :=
    match p.valParams with
    | some vps =>
        if cfg.phOn then param_values ++ vps.map (fun v => (Stmt.pickle v).1)
        else param_values
    | none => param_values
  let select_params : Option (List String) :=
    if p.sub.placeholderOn then some p.sub.sqlParams else none
  let param_values :=
    match select_params with
    | some sps => param_values ++ sps
    | none => param_values
  (Tok.text (Stmt.quote_col_ref cfg p.field ++ " " ++ p.op ++ " (") ::
      p.sub.sqlToks ++ [Tok.text ")"],
    param_values)

/-- The `self._values` loop: emit one fragment per entry, threading the
shared parameter list. -/
def valuesSql (cfg : StmtCfg) :
    List ValuePred → List (List Tok) → List String →
    Except String (List (List Tok) × List String)
  | [], frags, ps => .ok (frags, ps)
  | p :: rest, frags, ps => do
      let (frag, ps) ← valuePredSql cfg p ps
      valuesSql cfg rest (frags ++ [frag]) ps

/-- The `self._values_raw` loop. -/
def rawsSql (cfg : StmtCfg) :
    List RawPred → List (List Tok) → List String → List (List Tok) × List String
  | [], frags, ps => (frags, ps)
  | p :: rest, frags, ps =>
      let (frag, ps) := rawPredSql cfg p ps
      rawsSql cfg rest (frags ++ [frag]) ps

/-- The `self._raw_exprs` loop. -/
def exprsSql (cfg : StmtCfg) :
    List ExprPred → List (List Tok) → List String → List (List Tok) × List String
  | [], frags, ps => (frags, ps)
  | p :: rest, frags, ps =>
      let (frag, ps) := exprPredSql cfg p ps
      exprsSql cfg rest (frags ++ [frag]) ps

/-- The `self._selects` loop. -/
def selectsSql (cfg : StmtCfg) :
    List SelectPred → List (List Tok) → List String → List (List Tok) × List String
  | [], frags, ps => (frags, ps)
  | p :: rest, frags, ps =>
      let (frag, ps) := selectPredSql cfg p ps
      selectsSql cfg rest (frags ++ [frag]) ps

/-- Final lines of `WhereCondition.sql` (src/mysqlstmt/where_condition.py
lines 517-527): an empty fragment list renders to `None`; otherwise the
fragments are joined with the node's predicate, wrapped in `NOT (...)` when
negated, else in parens when `expr_count > 1`. -/
def condWrap (c : WhereCondition) (frags : List (List Tok)) : Option (List Tok) :=
  if frags.isEmpty then none
  else
    let joined := joinFrags c.predStr frags
    if c.negate then some (Tok.text "NOT (" :: joined ++ [Tok.text ")"])
    else if 1 < c.expr_count then some (Tok.text "(" :: joined ++ [Tok.text ")"])
    else some joined

mutual
/-- The fragment-collecting part of `WhereCondition.sql`
(src/mysqlstmt/where_condition.py lines 419-515): the `sql` list after all
four leaf loops, children first, threading the shared `param_values`. -/
def WhereCondition.sqlFrags (cfg : StmtCfg) :
    WhereCondition → List String → Except String (List (List Tok) × List String)
  | .mk _ _ v vr re se cs, ps => do
      let (frags, ps) ← WhereConditions.sqlConds cfg cs ps
      let (frags, ps) ← valuesSql cfg v frags ps
      let (frags, ps) := rawsSql cfg vr frags ps
      let (frags, ps) := exprsSql cfg re frags ps
      let (frags, ps) := selectsSql cfg se frags ps
      .ok (frags, ps)

/-- The `for cond in self._conds` loop (src/mysqlstmt/where_condition.py
lines 421-424): render each child in insertion order and keep `cond_sql`
only when it is truthy — Python's `if cond_sql:` drops both a `None`
render and an empty-string render (such as a child holding only
`where_expr("")`). -/
def WhereConditions.sqlConds (cfg : StmtCfg) :
    WhereConditions → List String → Except String (List (List Tok) × List String)
  | .nil, ps => .ok ([], ps)
  | .cons c cs, ps => do
      let (cfrags, ps) ← WhereCondition.sqlFrags cfg c ps
      let rendered := condWrap c cfrags
      let (rest, ps) ← WhereConditions.sqlConds cfg cs ps
      match rendered with
      | some f =>
          if renderToks (phStr cfg) f = "" then .ok (rest, ps)
          else .ok (f :: rest, ps)
      | none => .ok (rest, ps)
end

/-- `WhereCondition.sql` (src/mysqlstmt/where_condition.py lines 405-527):
collect fragments, then join and wrap.  Returns the optional SQL fragment
(`none` = Python `None`) and the updated parameter list; `.error` models a
raised Python exception. -/
def WhereCondition.sql (cfg : StmtCfg) (c : WhereCondition) (param_values : List String) :
    Except String (Option (List Tok) × List String) := do
  let (frags, ps) ← WhereCondition.sqlFrags cfg c param_values
  .ok (condWrap c frags, ps)

/-- Python dict assignment `self._values[field] = (value, operator)` on an
insertion-ordered dict: replace the entry for the key in place, or append a
new entry (src/mysqlstmt/where_condition.py line 292). -/
def setValue (f : String) (v : WhereValue) (op : String) :
    List ValuePred → List ValuePred
  | [] => [⟨f, v, op⟩]
  | p :: rest =>
      if p.field = f then ⟨f, v, op⟩ :: rest else p :: setValue f v op rest

/-- `self._values_raw[field] = (raw_value, operator, value_params)`
(src/mysqlstmt/where_condition.py line 337), same dict discipline. -/
def setValueRaw (f : String) (toks : List Tok) (op : String)
    (vps : Option (List PickleVal)) : List RawPred → List RawPred
  | [] => [⟨f, toks, op, vps⟩]
  | p :: rest =>
      if p.field = f then ⟨f, toks, op, vps⟩ :: rest else p :: setValueRaw f toks op vps rest

/-- `WhereCondition.where_value` (src/mysqlstmt/where_condition.py lines
285-296) for a single field: AND-mode nodes assign into the per-field dict
(last write wins), OR-mode nodes append to the list. -/
def WhereCondition.where_value (c : WhereCondition) (f : String)
    (v : WhereValue) (op : String) : WhereCondition :=
  match c with
  | .mk o n vals vr re se cs =>
      if o then .mk o n (vals ++ [⟨f, v, op⟩]) vr re se cs
      else .mk o n (setValue f v op vals) vr re se cs

/-- `WhereCondition.where_raw_value` (src/mysqlstmt/where_condition.py
lines 336-339) for a single field with raw text present. -/
def WhereCondition.where_raw_value (c : WhereCondition) (f : String)
    (toks : List Tok) (op : String) (vps : Option (List PickleVal)) : WhereCondition :=
  match c with
  | .mk o n vals vr re se cs =>
      if o then .mk o n vals (vr ++ [⟨f, toks, op, vps⟩]) re se cs
      else .mk o n vals (setValueRaw f toks op vps vr) re se cs

/-- The parameters a value predicate contributes, in element order: the
pickled text of each parameterizable scalar, when a placeholder is
configured.  This follows the spec's description of which values become
placeholders; together with `WhereCondition.specParams` it names the
expected left-to-right parameter order. -/
def valueSpecParams (cfg : StmtCfg) (v : WhereValue) : List String :=
  if cfg.phOn then
    (v.flat.filter (fun x => (Stmt.pickle x).2)).map (fun x => (Stmt.pickle x).1)
  else []

/-- The parameters a raw-value predicate contributes: its pickled bind
params, when a placeholder is configured. -/
def rawSpecParams (cfg : StmtCfg) (p : RawPred) : List String :=
  match p.valParams with
  | some vps => if cfg.phOn then vps.map (fun v => (Stmt.pickle v).1) else []
  | none => []

/-- The parameters a raw expression contributes: its params verbatim, when
a placeholder is configured. -/
def exprSpecParams (cfg : StmtCfg) (p : ExprPred) : List String :=
  match p.exprParams with
  | some eps => if cfg.phOn then eps else []
  | none => []

/-- The parameters a subquery-membership predicate contributes: pickled
value params (when the outer placeholder is configured) followed by the
subquery's own parameters (when the subquery's placeholder is on). -/
def selectSpecParams (cfg : StmtCfg) (p : SelectPred) : List String :=
  (match p.valParams with
   | some vps => if cfg.phOn then vps.map (fun v => (Stmt.pickle v).1) else []
   | none => []) ++
  (if p.sub.placeholderOn then p.sub.sqlParams else [])

mutual
/-- The expected bound-parameter sequence of a whole condition tree, in the
spec's render order: children first in insertion order, then value
predicates, raw values, raw expressions and subquery predicates.  This is
the "BoundParameterList" order the spec promises. -/
def WhereCondition.specParams (cfg : StmtCfg) : WhereCondition → List String
  | .mk _ _ v vr re se cs =>
      WhereConditions.specParamsConds cfg cs ++
      (v.map (fun p => valueSpecParams cfg p.value)).flatten ++
      (vr.map (rawSpecParams cfg)).flatten ++
      (re.map (exprSpecParams cfg)).flatten ++
      (se.map (selectSpecParams cfg)).flatten

/-- Children's contribution to `WhereCondition.specParams`. -/
def WhereConditions.specParamsConds (cfg : StmtCfg) : WhereConditions → List String
  | .nil => []
  | .cons c cs =>
      WhereCondition.specParams cfg c ++ WhereConditions.specParamsConds cfg cs
end

/-- A value predicate never renders an empty inline list (rules out the
empty-sequence `IndexError`, see claim C10). -/
def valuePredWf (p : ValuePred) : Bool :=
  !p.value.flat.isEmpty

/-- Caller contract for a raw-value predicate: the raw text contains
exactly one placeholder occurrence per bind parameter that will be
appended. -/
def rawPredWf (cfg : StmtCfg) (p : RawPred) : Bool :=
  phCount p.rawToks == (rawSpecParams cfg p).length

/-- Caller contract for a raw expression: one placeholder per parameter. -/
def exprPredWf (cfg : StmtCfg) (p : ExprPred) : Bool :=
  phCount p.toks == (exprSpecParams cfg p).length

/-- Caller contract for a subquery predicate: the rendered subquery text
contains one placeholder per parameter appended on its behalf. -/
def selectPredWf (cfg : StmtCfg) (p : SelectPred) : Bool :=
  phCount p.sub.sqlToks == (selectSpecParams cfg p).length

mutual
/-- Well-formedness of a condition tree for the parameter-order claim:
every leaf satisfies its caller contract, recursively. -/
def WhereCondition.phAligned (cfg : StmtCfg) : WhereCondition → Bool
  | .mk _ _ v vr re se cs =>
      v.all valuePredWf && vr.all (rawPredWf cfg) && re.all (exprPredWf cfg) &&
        se.all (selectPredWf cfg) && WhereConditions.phAlignedConds cfg cs

/-- `WhereCondition.phAligned` for every child. -/
def WhereConditions.phAlignedConds (cfg : StmtCfg) : WhereConditions → Bool
  | .nil => true
  | .cons c cs =>
      WhereCondition.phAligned cfg c && WhereConditions.phAlignedConds cfg cs
end

mutual
/-- No raw expression anywhere in the tree renders to the empty string.
Raw expressions are the only predicates that can emit an empty fragment
(value, raw-value and subquery fragments always contain spaces or parens),
so under this condition no child render is dropped by the truthiness check
in `WhereConditions.sqlConds`. -/
def WhereCondition.noEmptyExprs (cfg : StmtCfg) : WhereCondition → Bool
  | .mk _ _ _ _ re _ cs =>
      re.all (fun p => !(renderToks (phStr cfg) p.toks == "")) &&
        WhereConditions.noEmptyExprsConds cfg cs

/-- `WhereCondition.noEmptyExprs` for every child. -/
def WhereConditions.noEmptyExprsConds (cfg : StmtCfg) : WhereConditions → Bool
  | .nil => true
  | .cons c cs =>
      WhereCondition.noEmptyExprs cfg c && WhereConditions.noEmptyExprsConds cfg cs
end

/-- A decimal digit character back to its value, as `strptime` reads one
digit (`none` on a non-digit). -/
def c2d (c : Char) : Option Nat :=
  if 48 ≤ c.toNat ∧ c.toNat ≤ 57 then some (c.toNat - 48) else none

/-- Modelled from the spec: `datetime.datetime.strptime(s, "%Y-%m-%d")`
restricted to the zero-padded texts `strftime` emits (the Python library
function is not part of this repository).  Reads four year digits, two
month digits and two day digits separated by '-', validating the field
ranges; exact calendar day-of-month validation is abstracted to 1..31. -/
def strptimeDate (str : String) : Option PickleVal :=
  match str.data with
  | [a, b, c, d, s1, e, f, s2, g, h] =>
      match c2d a, c2d b, c2d c, c2d d, c2d e, c2d f, c2d g, c2d h with
      | some da, some db, some dc, some dd, some de, some df, some dg, some dh =>
          if s1 = '-' ∧ s2 = '-' then
            let y := da * 1000 + db * 100 + dc * 10 + dd
            let mo := de * 10 + df
            let dy := dg * 10 + dh
            if 1 ≤ mo ∧ mo ≤ 12 ∧ 1 ≤ dy ∧ dy ≤ 31 then some (.date y mo dy)
            else none
          else none
      | _, _, _, _, _, _, _, _ => none
  | _ => none

/-- Modelled from the spec: `datetime.datetime.strptime(s, "%H:%M:%S")`
restricted to zero-padded texts; an unmatched `%f` leaves microseconds 0,
exactly as `strptime` does. -/
def strptimeTime (str : String) : Option PickleVal :=
  match str.data with
  | [a, b, s1, c, d, s2, e, f] =>
      match c2d a, c2d b, c2d c, c2d d, c2d e, c2d f with
      | some da, some db, some dc, some dd, some de, some df =>
          if s1 = ':' ∧ s2 = ':' then
            let h := da * 10 + db
            let mi := dc * 10 + dd
            let s := de * 10 + df
            if h ≤ 23 ∧ mi ≤ 59 ∧ s ≤ 61 then some (.time h mi s 0)
            else none
          else none
      | _, _, _, _, _, _ => none
  | _ => none

/-- Modelled from the spec:
`datetime.datetime.strptime(s, "%Y-%m-%d %H:%M:%S")` restricted to
zero-padded texts; microseconds parse to 0. -/
def strptimeDateTime (str : String) : Option PickleVal :=
  match str.data with
  | [a, b, c, d, s1, e, f, s2, g, h, sp, i, j, s3, k, l, s4, m, n] =>
      match c2d a, c2d b, c2d c, c2d d, c2d e, c2d f, c2d g, c2d h,
          c2d i, c2d j, c2d k, c2d l, c2d m, c2d n with
      | some da, some db, some dc, some dd, some de, some df, some dg, some dh,
          some di, some dj, some dk, some dl, some dm, some dn =>
          if s1 = '-' ∧ s2 = '-' ∧ sp = ' ' ∧ s3 = ':' ∧ s4 = ':' then
            let y := da * 1000 + db * 100 + dc * 10 + dd
            let mo := de * 10 + df
            let dy := dg * 10 + dh
            let hr := di * 10 + dj
            let mi := dk * 10 + dl
            let sec := dm * 10 + dn
            if 1 ≤ mo ∧ mo ≤ 12 ∧ 1 ≤ dy ∧ dy ≤ 31 ∧ hr ≤ 23 ∧ mi ≤ 59 ∧ sec ≤ 61 then
              some (.datetime y mo dy hr mi sec 0)
            else none
          else none
      | _, _, _, _, _, _, _, _, _, _, _, _, _, _ => none
  | _ => none

/-- Render the optional fragment of `WhereCondition.sql` to a concrete SQL
string with placeholder text `phs`, exactly what the Python method
returns. -/
def sqlStr (cfg : StmtCfg) (phs : String) (c : WhereCondition) (ps : List String) :
    Except String (Option String × List String) :=
  (WhereCondition.sql cfg c ps).map (fun r => (r.1.map (renderToks phs), r.2))

/-- A fresh AND-mode `WhereCondition` holding a single value predicate. -/
def singleValueCond (f : String) (v : WhereValue) (op : String) : WhereCondition :=
  .mk false false [⟨f, v, op⟩] [] [] [] .nil

/-- The operator rewrite for multi-element sequences
(src/mysqlstmt/where_condition.py lines 448-451). -/
def opMulti (op : String) : String :=
  if op = "=" then "IN" else if op = "<>" then "NOT IN" else op

/-- The operator rewrite for single-element sequences
(src/mysqlstmt/where_condition.py lines 455-458). -/
def opSingle (op : String) : String :=
  if op = "IN" then "=" else if op = "NOT IN" then "<>" else op

/-- The operator rewrite for NULL right-hand sides
(src/mysqlstmt/where_condition.py lines 462-466). -/
def opNullFlip (op : String) : String :=
  if op = "=" then "IS" else if op = "<>" then "IS NOT" else op

/-- An AND-mode node holding one raw-value predicate
`t1c1 = PASSWORD(?)` with bind params `["mypw"]`, as in
`where_raw_value("t1c1", "PASSWORD(?)", value_params=("mypw",))`. -/
def rawPwCond : WhereCondition :=
  .mk false false []
    [⟨"t1c1", [Tok.text "PASSWORD(", Tok.ph, Tok.text ")"], "=", some [.str "mypw"]⟩]
    [] [] .nil

/-- A nested condition used to witness the parameter-order theorem: an OR
child with a string and an integer comparison. -/
def c1Child : WhereCondition :=
  .mk true false
    [⟨"a", .scalar (.str "x"), "="⟩, ⟨"b", .scalar (.int 7), "="⟩]
    [] [] [] .nil

/-- A tree mixing all four predicate kinds under an AND root with a nested
OR child, used to witness the parameter-order theorem. -/
def c1Tree : WhereCondition :=
  .mk false false
    [⟨"c", .seq [.str "u", .str "v"], "="⟩]
    [⟨"d", [Tok.text "PASSWORD(", Tok.ph, Tok.text ")"], "=", some [.str "pw"]⟩]
    [⟨[Tok.text "e = ", Tok.ph], some ["ex"]⟩]
    [⟨"f", ⟨true, [Tok.text "SELECT x FROM t WHERE y = ", Tok.ph, Tok.text " AND z = ", Tok.ph],
      ["sp"]⟩, "IN", some [.str "vp"]⟩]
    (.cons c1Child .nil)

theorem phCount_append (a b : List Tok) : phCount (a ++ b) = phCount a + phCount b := by
  simp [phCount, List.filter_append]

theorem phCount_cons_text (s : String) (l : List Tok) :
    phCount (Tok.text s :: l) = phCount l := by
  simp [phCount, List.filter_cons, Tok.isPh]

theorem phCount_intersperse_text (s : String) (l : List Tok) :
    phCount (l.intersperse (Tok.text s)) = phCount l := by
  induction l with
  | nil => rfl
  | cons t rest ih =>
      cases rest with
      | nil => rfl
      | cons u rest' =>
          rw [List.intersperse_cons_cons]
          cases t <;>
            simp only [phCount, List.filter_cons, Tok.isPh] at ih ⊢ <;>
            simp_all [phCount]

theorem phCount_joinFrags (sep : String) (frags : List (List Tok)) :
    phCount (joinFrags sep frags) = (frags.map phCount).sum := by
  induction frags with
  | nil => rfl
  | cons f rest ih =>
      cases rest with
      | nil => simp [joinFrags]
      | cons g rest' =>
          show phCount (f ++ Tok.text sep :: joinFrags sep (g :: rest')) = _
          rw [phCount_append, phCount_cons_text, ih]
          simp

theorem bindE_ok {a b : Type} (x : a) (f : a → Except String b) :
    (Except.ok x : Except String a) >>= f = f x := rfl

theorem bindE_err {a b : Type} (e : String) (f : a → Except String b) :
    (Except.error e : Except String a) >>= f = Except.error e := rfl

theorem bindE_ok_inv {a b : Type} (e : Except String a) (g : a → Except String b) (r : b)
    (h : (e >>= g) = .ok r) : ∃ x, e = .ok x ∧ g x = .ok r := by
  cases e with
  | error er => simp [bindE_err] at h
  | ok x => exact ⟨x, rfl, by simpa [bindE_ok] using h⟩

theorem string_append_eq_empty (a b : String) : a ++ b = "" ↔ a = "" ∧ b = "" := by
  constructor
  · intro h
    have hd := congrArg String.data h
    rw [String.data_append] at hd
    rcases List.append_eq_nil.mp hd with ⟨ha, hb⟩
    constructor
    · cases a
      exact congrArg String.mk ha
    · cases b
      exact congrArg String.mk hb
  · rintro ⟨rfl, rfl⟩
    rfl

theorem renderToks_append (phs : String) (a b : List Tok) :
    renderToks phs (a ++ b) = renderToks phs a ++ renderToks phs b := by
  induction a with
  | nil => simp [renderToks]
  | cons t ts ih => simp [renderToks, ih, String.append_assoc]

theorem renderToks_eq_empty (phs : String) (ts : List Tok) :
    renderToks phs ts = "" ↔ ∀ t ∈ ts, tokStr phs t = "" := by
  induction ts with
  | nil => simp [renderToks]
  | cons t ts ih => simp [renderToks, string_append_eq_empty, ih]

theorem renderToks_text_cons_ne (phs s : String) (rest : List Tok) (hs : s ≠ "") :
    renderToks phs (Tok.text s :: rest) ≠ "" := by
  simp [renderToks, tokStr, string_append_eq_empty, hs]

theorem trailing_ne_empty (a b : String) (hb : b ≠ "") : a ++ b ≠ "" := by
  intro h
  exact hb ((string_append_eq_empty a b).mp h).2

theorem phStr_ne_empty (cfg : StmtCfg) (hph : cfg.phOn = true) : phStr cfg ≠ "" := by
  unfold StmtCfg.phOn at hph
  unfold phStr
  cases hp : cfg.placeholder with
  | none => rw [hp] at hph; simp at hph
  | some s =>
      rw [hp] at hph
      simp only [Bool.not_eq_true', Option.getD_some] at hph ⊢
      intro hs
      rw [hs] at hph
      exact absurd hph (by decide)

theorem phCount_eq_zero_of_renderEmpty (cfg : StmtCfg) (f : List Tok)
    (hph : cfg.phOn = true) (h : renderToks (phStr cfg) f = "") : phCount f = 0 := by
  rw [renderToks_eq_empty] at h
  unfold phCount
  rw [List.length_eq_zero, List.filter_eq_nil_iff]
  intro t ht
  cases t with
  | text s => simp [Tok.isPh]
  | ph => exact absurd (h _ ht) (phStr_ne_empty cfg hph)

theorem parameterize_scalar_some_some (cfg : StmtCfg) (v : PickleVal)
    (il : List Tok) (ps : List String) :
    ∃ d, Stmt.parameterize_scalar cfg v (some il) (some ps) =
        .ok (some (il ++ d), some (ps ++ valueSpecParams cfg (.scalar v))) ∧
      phCount d = (valueSpecParams cfg (.scalar v)).length ∧ d.length = 1 := by
  unfold Stmt.parameterize_scalar valueSpecParams WhereValue.flat
  rcases hp : Stmt.pickle v with ⟨t, b⟩
  cases b <;> cases hph : cfg.phOn <;>
    simp [hp, hph, phCount, Tok.isPh] <;>
    cases hq : cfg.quote_all_values <;> simp [phCount, Tok.isPh]

theorem parameterize_list_some_some (cfg : StmtCfg) (vs : List PickleVal) :
    ∀ (il : List Tok) (ps : List String),
    ∃ d, Stmt.parameterize_list cfg vs (some il) (some ps) =
        .ok (some (il ++ d), some (ps ++ valueSpecParams cfg (.seq vs))) ∧
      phCount d = (valueSpecParams cfg (.seq vs)).length ∧ d.length = vs.length := by
  induction vs with
  | nil =>
      intro il ps
      exact ⟨[], by simp [Stmt.parameterize_list, valueSpecParams, WhereValue.flat, phCount]⟩
  | cons v rest ih =>
      intro il ps
      obtain ⟨d1, h1, hc1, hl1⟩ := parameterize_scalar_some_some cfg v il ps
      obtain ⟨d2, h2, hc2, hl2⟩ :=
        ih (il ++ d1) (ps ++ valueSpecParams cfg (.scalar v))
      refine ⟨d1 ++ d2, ?_, ?_, ?_⟩
      · simp only [Stmt.parameterize_list, h1, bindE_ok]
        rw [h2]
        simp only [List.append_assoc]
        congr 2
        simp [valueSpecParams, WhereValue.flat, List.filter_cons]
        by_cases hb : (Stmt.pickle v).2 <;> by_cases hph : cfg.phOn = true <;>
          simp [hb, hph]
      · rw [phCount_append, hc1, hc2]
        simp [valueSpecParams, WhereValue.flat, List.filter_cons]
        by_cases hb : (Stmt.pickle v).2 <;> by_cases hph : cfg.phOn = true <;>
          simp [hb, hph] <;> omega
      · simp [hl1, hl2]
        omega

theorem valuePredSql_spec (cfg : StmtCfg) (p : ValuePred) (ps : List String)
    (hwf : valuePredWf p = true) :
    ∃ frag, valuePredSql cfg p ps = .ok (frag, ps ++ valueSpecParams cfg p.value) ∧
      phCount frag = (valueSpecParams cfg p.value).length := by
  obtain ⟨f, v, op⟩ := p
  cases v with
  | scalar w =>
      obtain ⟨d, h1, hc, hl⟩ := parameterize_scalar_some_some cfg w [] ps
      obtain ⟨t, rfl⟩ : ∃ t, d = [t] := by
        match d, hl with
        | [t], _ => exact ⟨t, rfl⟩
      simp only [valuePredSql, Stmt.parameterize_values, h1, bindE_ok, List.nil_append,
        Option.getD_some]
      exact ⟨_, rfl, by rw [phCount_cons_text]; exact hc⟩
  | seq vs =>
      obtain ⟨d, h1, hc, hl⟩ := parameterize_list_some_some cfg vs [] ps
      by_cases hlen : 1 < vs.length
      · simp only [valuePredSql, Stmt.parameterize_values, h1, bindE_ok, List.nil_append,
          Option.getD_some, if_pos hlen]
        refine ⟨_, rfl, ?_⟩
        simp only [phCount_cons_text, phCount_append, phCount_intersperse_text]
        simpa [phCount, Tok.isPh] using hc
      · have hne : vs ≠ [] := by
          simpa [valuePredWf, WhereValue.flat] using hwf
        have hlen1 : vs.length = 1 := by
          cases vs with
          | nil => exact absurd rfl hne
          | cons a rest =>
              cases rest with
              | nil => rfl
              | cons b r => simp at hlen
        obtain ⟨t, rfl⟩ : ∃ t, d = [t] := by
          rw [hlen1] at hl
          match d, hl with
          | [t], _ => exact ⟨t, rfl⟩
        simp only [valuePredSql, Stmt.parameterize_values, h1, bindE_ok, List.nil_append,
          Option.getD_some, if_neg hlen]
        exact ⟨_, rfl, by rw [phCount_cons_text]; exact hc⟩

theorem rawPredSql_eq (cfg : StmtCfg) (p : RawPred) (ps : List String) :
    rawPredSql cfg p ps =
      (Tok.text (Stmt.quote_col_ref cfg p.field ++ " " ++ p.op ++ " ") :: p.rawToks,
        ps ++ rawSpecParams cfg p) := by
  unfold rawPredSql rawSpecParams
  cases p.valParams <;> cases h : cfg.phOn <;> simp [h]

theorem exprPredSql_eq (cfg : StmtCfg) (p : ExprPred) (ps : List String) :
    exprPredSql cfg p ps = (p.toks, ps ++ exprSpecParams cfg p) := by
  unfold exprPredSql exprSpecParams
  cases p.exprParams <;> cases h : cfg.phOn <;> simp [h]

theorem selectPredSql_eq (cfg : StmtCfg) (p : SelectPred) (ps : List String) :
    selectPredSql cfg p ps =
      (Tok.text (Stmt.quote_col_ref cfg p.field ++ " " ++ p.op ++ " (") ::
          p.sub.sqlToks ++ [Tok.text ")"],
        ps ++ selectSpecParams cfg p) := by
  unfold selectPredSql selectSpecParams
  cases p.valParams <;> cases h : cfg.phOn <;>
    cases hs : p.sub.placeholderOn <;> simp [h, hs]

theorem valuesSql_spec (cfg : StmtCfg) (l : List ValuePred) :
    ∀ (frags : List (List Tok)) (ps : List String),
    l.all valuePredWf = true →
    ∃ nf, valuesSql cfg l frags ps =
        .ok (frags ++ nf, ps ++ (l.map (fun p => valueSpecParams cfg p.value)).flatten) ∧
      (nf.map phCount).sum = ((l.map (fun p => valueSpecParams cfg p.value)).flatten).length ∧
      nf.length = l.length := by
  induction l with
  | nil => intro frags ps _; exact ⟨[], by simp [valuesSql]⟩
  | cons p rest ih =>
      intro frags ps hwf
      simp only [List.all_cons, Bool.and_eq_true] at hwf
      obtain ⟨frag, h1, hc1⟩ := valuePredSql_spec cfg p ps hwf.1
      obtain ⟨nf, h2, hc2, hl2⟩ :=
        ih (frags ++ [frag]) (ps ++ valueSpecParams cfg p.value) hwf.2
      refine ⟨frag :: nf, ?_, ?_, by simp [hl2]⟩
      · simp only [valuesSql, h1, bindE_ok, h2]
        simp
      · simp [hc1, hc2]

theorem rawsSql_spec (cfg : StmtCfg) (l : List RawPred) :
    ∀ (frags : List (List Tok)) (ps : List String),
    ∃ nf, rawsSql cfg l frags ps = (frags ++ nf, ps ++ (l.map (rawSpecParams cfg)).flatten) ∧
      nf.length = l.length ∧
      (l.all (rawPredWf cfg) = true →
        (nf.map phCount).sum = ((l.map (rawSpecParams cfg)).flatten).length) := by
  induction l with
  | nil => intro frags ps; exact ⟨[], by simp [rawsSql]⟩
  | cons p rest ih =>
      intro frags ps
      obtain ⟨nf, h2, hl2, hc2⟩ :=
        ih (frags ++ [Tok.text (Stmt.quote_col_ref cfg p.field ++ " " ++ p.op ++ " ") :: p.rawToks])
          (ps ++ rawSpecParams cfg p)
      refine ⟨(Tok.text (Stmt.quote_col_ref cfg p.field ++ " " ++ p.op ++ " ") :: p.rawToks) :: nf,
        ?_, by simp [hl2], ?_⟩
      · simp only [rawsSql, rawPredSql_eq, h2]
        simp
      · intro hwf
        simp only [List.all_cons, Bool.and_eq_true] at hwf
        have hw1 := hwf.1
        simp only [rawPredWf, beq_iff_eq] at hw1
        simp [phCount_cons_text, hc2 hwf.2, hw1]

theorem exprsSql_spec (cfg : StmtCfg) (l : List ExprPred) :
    ∀ (frags : List (List Tok)) (ps : List String),
    ∃ nf, exprsSql cfg l frags ps = (frags ++ nf, ps ++ (l.map (exprSpecParams cfg)).flatten) ∧
      nf.length = l.length ∧
      (l.all (exprPredWf cfg) = true →
        (nf.map phCount).sum = ((l.map (exprSpecParams cfg)).flatten).length) := by
  induction l with
  | nil => intro frags ps; exact ⟨[], by simp [exprsSql]⟩
  | cons p rest ih =>
      intro frags ps
      obtain ⟨nf, h2, hl2, hc2⟩ := ih (frags ++ [p.toks]) (ps ++ exprSpecParams cfg p)
      refine ⟨p.toks :: nf, ?_, by simp [hl2], ?_⟩
      · simp only [exprsSql, exprPredSql_eq, h2]
        simp
      · intro hwf
        simp only [List.all_cons, Bool.and_eq_true] at hwf
        have hw1 := hwf.1
        simp only [exprPredWf, beq_iff_eq] at hw1
        simp [hc2 hwf.2, hw1]

theorem selectsSql_spec (cfg : StmtCfg) (l : List SelectPred) :
    ∀ (frags : List (List Tok)) (ps : List String),
    ∃ nf, selectsSql cfg l frags ps = (frags ++ nf, ps ++ (l.map (selectSpecParams cfg)).flatten) ∧
      nf.length = l.length ∧
      (l.all (selectPredWf cfg) = true →
        (nf.map phCount).sum = ((l.map (selectSpecParams cfg)).flatten).length) := by
  induction l with
  | nil => intro frags ps; exact ⟨[], by simp [selectsSql]⟩
  | cons p rest ih =>
      intro frags ps
      obtain ⟨nf, h2, hl2, hc2⟩ :=
        ih (frags ++ [Tok.text (Stmt.quote_col_ref cfg p.field ++ " " ++ p.op ++ " (") ::
            p.sub.sqlToks ++ [Tok.text ")"]])
          (ps ++ selectSpecParams cfg p)
      refine ⟨(Tok.text (Stmt.quote_col_ref cfg p.field ++ " " ++ p.op ++ " (") ::
          p.sub.sqlToks ++ [Tok.text ")"]) :: nf, ?_, by simp [hl2], ?_⟩
      · simp only [selectsSql, selectPredSql_eq, h2]
        simp
      · intro hwf
        simp only [List.all_cons, Bool.and_eq_true] at hwf
        have hw1 := hwf.1
        simp only [selectPredWf, beq_iff_eq] at hw1
        have hz : phCount [Tok.text ")"] = 0 := rfl
        simp only [List.map_cons, List.sum_cons, List.flatten_cons, List.length_append,
          phCount_cons_text, phCount_append, hz, hc2 hwf.2, hw1]
        omega

theorem phCountO_condWrap (c : WhereCondition) (frags : List (List Tok)) :
    phCountO (condWrap c frags) = (frags.map phCount).sum := by
  unfold condWrap phCountO
  by_cases h : frags.isEmpty
  · rw [List.isEmpty_iff] at h
    simp [h]
  · have hz : phCount [Tok.text ")"] = 0 := rfl
    simp only [h, Bool.false_eq_true, if_false]
    by_cases hn : c.negate <;> by_cases he : 1 < c.expr_count <;>
      simp [hn, he, phCount_cons_text, phCount_append, phCount_joinFrags, hz]

mutual
theorem sqlFrags_spec (cfg : StmtCfg) (hph : cfg.phOn = true) :
    ∀ (c : WhereCondition) (ps : List String),
      WhereCondition.phAligned cfg c = true →
      ∃ frags, WhereCondition.sqlFrags cfg c ps =
          .ok (frags, ps ++ WhereCondition.specParams cfg c) ∧
        (frags.map phCount).sum = (WhereCondition.specParams cfg c).length
  | .mk o n v vr re se cs, ps, hwf => by
      simp only [WhereCondition.phAligned, Bool.and_eq_true] at hwf
      obtain ⟨⟨⟨⟨hv, hvr⟩, hre⟩, hse⟩, hcs⟩ := hwf
      obtain ⟨cf, hcf, hsc⟩ := sqlConds_spec cfg hph cs ps hcs
      obtain ⟨nf1, h1, hc1, _⟩ :=
        valuesSql_spec cfg v cf (ps ++ WhereConditions.specParamsConds cfg cs) hv
      obtain ⟨nf2, h2, _, hc2⟩ := rawsSql_spec cfg vr (cf ++ nf1)
        (ps ++ WhereConditions.specParamsConds cfg cs ++
          (v.map (fun p => valueSpecParams cfg p.value)).flatten)
      obtain ⟨nf3, h3, _, hc3⟩ := exprsSql_spec cfg re (cf ++ nf1 ++ nf2)
        (ps ++ WhereConditions.specParamsConds cfg cs ++
          (v.map (fun p => valueSpecParams cfg p.value)).flatten ++
          (vr.map (rawSpecParams cfg)).flatten)
      obtain ⟨nf4, h4, _, hc4⟩ := selectsSql_spec cfg se (cf ++ nf1 ++ nf2 ++ nf3)
        (ps ++ WhereConditions.specParamsConds cfg cs ++
          (v.map (fun p => valueSpecParams cfg p.value)).flatten ++
          (vr.map (rawSpecParams cfg)).flatten ++
          (re.map (exprSpecParams cfg)).flatten)
      refine ⟨cf ++ nf1 ++ nf2 ++ nf3 ++ nf4, ?_, ?_⟩
      · simp only [WhereCondition.sqlFrags, hcf, bindE_ok, h1, h2, h3, h4,
          WhereCondition.specParams]
        simp [List.append_assoc]
      · simp only [WhereCondition.specParams, List.map_append, List.sum_append,
          List.length_append]
        rw [hsc, hc1, hc2 hvr, hc3 hre, hc4 hse]

theorem sqlConds_spec (cfg : StmtCfg) (hph : cfg.phOn = true) :
    ∀ (cs : WhereConditions) (ps : List String),
      WhereConditions.phAlignedConds cfg cs = true →
      ∃ frags, WhereConditions.sqlConds cfg cs ps =
          .ok (frags, ps ++ WhereConditions.specParamsConds cfg cs) ∧
        (frags.map phCount).sum = (WhereConditions.specParamsConds cfg cs).length
  | .nil, ps, _ =>
      ⟨[], by simp [WhereConditions.sqlConds, WhereConditions.specParamsConds]⟩
  | .cons c cs, ps, hwf => by
      simp only [WhereConditions.phAlignedConds, Bool.and_eq_true] at hwf
      obtain ⟨c1, hc1, hs1⟩ := sqlFrags_spec cfg hph c ps hwf.1
      obtain ⟨rest, hrest, hsrest⟩ :=
        sqlConds_spec cfg hph cs (ps ++ WhereCondition.specParams cfg c) hwf.2
      have hwrap := phCountO_condWrap c c1
      cases hr : condWrap c c1 with
      | some f =>
          rw [hr] at hwrap
          simp only [phCountO] at hwrap
          by_cases hemp : renderToks (phStr cfg) f = ""
          · have hzero : phCount f = 0 :=
              phCount_eq_zero_of_renderEmpty cfg f hph hemp
            refine ⟨rest, ?_, ?_⟩
            · simp only [WhereConditions.sqlConds, hc1, bindE_ok, hr, hrest,
                WhereConditions.specParamsConds, if_pos hemp]
              simp [List.append_assoc]
            · simp only [WhereConditions.specParamsConds, List.length_append]
              omega
          · refine ⟨f :: rest, ?_, ?_⟩
            · simp only [WhereConditions.sqlConds, hc1, bindE_ok, hr, hrest,
                WhereConditions.specParamsConds, if_neg hemp]
              simp [List.append_assoc]
            · simp only [List.map_cons, List.sum_cons, WhereConditions.specParamsConds,
                List.length_append, hwrap, hs1, hsrest]
      | none =>
          refine ⟨rest, ?_, ?_⟩
          · simp only [WhereConditions.sqlConds, hc1, bindE_ok, hr, hrest,
              WhereConditions.specParamsConds]
            simp [List.append_assoc]
          · rw [hr] at hwrap
            simp only [phCountO] at hwrap
            simp only [WhereConditions.specParamsConds, List.length_append, hsrest]
            omega
end

/-- C1: for every condition tree (any nesting of AND/OR nodes mixing value
predicates, raw-value predicates with bind params, raw expressions with
params, and subquery-membership predicates) whose raw fragments contain one
placeholder occurrence per parameter appended on their behalf
(`phAligned`), rendering through `WhereCondition.sql` appends exactly the
parameters `specParams` — children first in insertion order, then leaf
predicates in source order — to the threaded parameter list, and the
rendered text contains exactly one placeholder occurrence per appended
parameter, so the k-th placeholder in the text corresponds to the k-th
appended parameter. -/
theorem C1_param_order (cfg : StmtCfg) (c : WhereCondition) (ps : List String)
    (hph : cfg.phOn = true) (hwf : WhereCondition.phAligned cfg c = true) :
    ∃ res, WhereCondition.sql cfg c ps =
        .ok (res, ps ++ WhereCondition.specParams cfg c) ∧
      phCountO res = (WhereCondition.specParams cfg c).length := by
  obtain ⟨frags, hf, hs⟩ := sqlFrags_spec cfg hph c ps hwf
  refine ⟨condWrap c frags, ?_, ?_⟩
  · simp only [WhereCondition.sql, hf, bindE_ok]
  · rw [phCountO_condWrap, hs]

/-- Witness for C1 at a concrete tree mixing all predicate kinds. -/
theorem C1_witness :
    cfgDefault.phOn = true ∧ WhereCondition.phAligned cfgDefault c1Tree = true ∧
      ∃ res, WhereCondition.sql cfgDefault c1Tree [] =
          .ok (res, [] ++ WhereCondition.specParams cfgDefault c1Tree) ∧
        phCountO res = (WhereCondition.specParams cfgDefault c1Tree).length :=
  ⟨rfl, by decide, C1_param_order cfgDefault c1Tree [] rfl (by decide)⟩

mutual
theorem has_conds_pos : ∀ (c : WhereCondition), c.has_conds = true ↔ 0 < c.expr_count
  | .mk o n v vr re se cs => by
      have hcs := anyHasConds_pos cs
      simp only [WhereCondition.has_conds, WhereCondition.expr_count, Bool.or_eq_true]
      have hv : (!v.isEmpty) = true ↔ 0 < v.length := by cases v <;> simp
      have hvr : (!vr.isEmpty) = true ↔ 0 < vr.length := by cases vr <;> simp
      have hre : (!re.isEmpty) = true ↔ 0 < re.length := by cases re <;> simp
      have hse : (!se.isEmpty) = true ↔ 0 < se.length := by cases se <;> simp
      rw [hv, hvr, hre, hse, hcs]
      omega

theorem anyHasConds_pos : ∀ (cs : WhereConditions),
    WhereConditions.anyHasConds cs = true ↔ 0 < WhereConditions.exprCountConds cs
  | .nil => by simp [WhereConditions.anyHasConds, WhereConditions.exprCountConds]
  | .cons c cs => by
      have hc := has_conds_pos c
      have hcs := anyHasConds_pos cs
      simp only [WhereConditions.anyHasConds, WhereConditions.exprCountConds, Bool.or_eq_true]
      by_cases h : c.has_conds = true
      · simp [h, hc.mp h]
      · have h0 : c.expr_count = 0 := by
          rcases Nat.eq_zero_or_pos c.expr_count with h1 | h1
          · exact h1
          · exact absurd (hc.mpr h1) h
        simp [h, hcs, h0]
end

mutual
theorem sqlFrags_empty (cfg : StmtCfg) :
    ∀ (c : WhereCondition) (ps : List String), c.has_conds = false →
      WhereCondition.sqlFrags cfg c ps = .ok ([], ps)
  | .mk o n v vr re se cs, ps, h => by
      simp only [WhereCondition.has_conds, Bool.or_eq_false_iff, Bool.not_eq_false'] at h
      obtain ⟨⟨⟨⟨hv, hvr⟩, hre⟩, hse⟩, hcs⟩ := h
      rw [List.isEmpty_iff] at hv hvr hre hse
      subst hv hvr hre hse
      simp only [WhereCondition.sqlFrags, sqlConds_empty cfg cs ps hcs, bindE_ok]
      simp [valuesSql, rawsSql, exprsSql, selectsSql, bindE_ok]

theorem sqlConds_empty (cfg : StmtCfg) :
    ∀ (cs : WhereConditions) (ps : List String), WhereConditions.anyHasConds cs = false →
      WhereConditions.sqlConds cfg cs ps = .ok ([], ps)
  | .nil, ps, _ => rfl
  | .cons c cs, ps, h => by
      simp only [WhereConditions.anyHasConds, Bool.or_eq_false_iff] at h
      simp only [WhereConditions.sqlConds, sqlFrags_empty cfg c ps h.1, bindE_ok,
        sqlConds_empty cfg cs ps h.2]
      simp [condWrap]
end

theorem condWrap_eq_none (c : WhereCondition) (frags : List (List Tok)) :
    condWrap c frags = none ↔ frags = [] := by
  unfold condWrap
  by_cases h : frags.isEmpty <;> rw [List.isEmpty_iff] at h <;>
    simp [h] <;> by_cases hn : c.negate <;> by_cases he : 1 < c.expr_count <;> simp [hn, he]

theorem valuesSql_length (cfg : StmtCfg) (l : List ValuePred) :
    ∀ (frags : List (List Tok)) (ps : List String) (frags' : List (List Tok))
      (ps' : List String),
      valuesSql cfg l frags ps = .ok (frags', ps') →
      frags'.length = frags.length + l.length := by
  induction l with
  | nil =>
      intro frags ps frags' ps' h
      simp only [valuesSql, Except.ok.injEq] at h
      obtain ⟨h1, _⟩ := Prod.mk.injEq .. ▸ h
      simp [← h1]
  | cons p rest ih =>
      intro frags ps frags' ps' h
      simp only [valuesSql] at h
      cases hp : valuePredSql cfg p ps with
      | error e => rw [hp] at h; simp [bindE_err] at h
      | ok pr =>
          obtain ⟨frag, ps1⟩ := pr
          rw [hp, bindE_ok] at h
          have := ih (frags ++ [frag]) ps1 frags' ps' h
          simp at this
          simp [this]
          omega

theorem valuePredSql_shape (cfg : StmtCfg) (p : ValuePred) (ps : List String)
    (frag : List Tok) (ps' : List String)
    (h : valuePredSql cfg p ps = .ok (frag, ps')) :
    ∃ s rest, frag = Tok.text s :: rest ∧ s ≠ "" := by
  unfold valuePredSql at h
  obtain ⟨⟨ilOpt, psOpt⟩, hpar, h⟩ := bindE_ok_inv _ _ _ h
  dsimp only at h
  split at h
  · split at h
    · simp only [bindE_ok, Except.ok.injEq, Prod.mk.injEq] at h
      exact ⟨_, _, h.1.symm, trailing_ne_empty _ " " (by decide)⟩
    · split at h
      · simp [bindE_err] at h
      · simp only [bindE_ok, Except.ok.injEq, Prod.mk.injEq] at h
        exact ⟨_, _, h.1.symm, trailing_ne_empty _ " " (by decide)⟩
  · split at h
    · simp [bindE_err] at h
    · simp only [bindE_ok, Except.ok.injEq, Prod.mk.injEq] at h
      exact ⟨_, _, h.1.symm, trailing_ne_empty _ " " (by decide)⟩

theorem valuesSql_all (cfg : StmtCfg) (P : List Tok → Prop) (l : List ValuePred) :
    ∀ (frags : List (List Tok)) (ps : List String) (frags' : List (List Tok))
      (ps' : List String),
      valuesSql cfg l frags ps = .ok (frags', ps') →
      (∀ f ∈ frags, P f) →
      (∀ (p : ValuePred) (ps0 : List String) (frag : List Tok) (ps1 : List String),
        valuePredSql cfg p ps0 = .ok (frag, ps1) → P frag) →
      ∀ f ∈ frags', P f := by
  induction l with
  | nil =>
      intro frags ps frags' ps' h hf _
      simp only [valuesSql, Except.ok.injEq, Prod.mk.injEq] at h
      intro f hmem
      apply hf
      rw [h.1]
      exact hmem
  | cons p rest ih =>
      intro frags ps frags' ps' h hf hpred
      simp only [valuesSql] at h
      obtain ⟨⟨frag, ps1⟩, hp, h⟩ := bindE_ok_inv _ _ _ h
      refine ih (frags ++ [frag]) ps1 frags' ps' h ?_ hpred
      intro f hmem
      rcases List.mem_append.mp hmem with hm | hm
      · exact hf f hm
      · rw [List.mem_singleton.mp hm]
        exact hpred p ps frag ps1 hp

theorem rawsSql_all (cfg : StmtCfg) (P : List Tok → Prop) (l : List RawPred) :
    ∀ (frags : List (List Tok)) (ps : List String),
      (∀ f ∈ frags, P f) →
      (∀ p ∈ l,
        P (Tok.text (Stmt.quote_col_ref cfg p.field ++ " " ++ p.op ++ " ") :: p.rawToks)) →
      ∀ f ∈ (rawsSql cfg l frags ps).1, P f := by
  induction l with
  | nil => intro frags ps hf _; simpa [rawsSql] using hf
  | cons p rest ih =>
      intro frags ps hf hl
      simp only [rawsSql, rawPredSql_eq]
      refine ih _ _ ?_ ?_
      · intro f hmem
        rcases List.mem_append.mp hmem with hm | hm
        · exact hf f hm
        · rw [List.mem_singleton.mp hm]
          exact hl p (List.mem_cons_self p rest)
      · intro q hq
        exact hl q (List.mem_cons_of_mem _ hq)

theorem exprsSql_all (cfg : StmtCfg) (P : List Tok → Prop) (l : List ExprPred) :
    ∀ (frags : List (List Tok)) (ps : List String),
      (∀ f ∈ frags, P f) → (∀ p ∈ l, P p.toks) →
      ∀ f ∈ (exprsSql cfg l frags ps).1, P f := by
  induction l with
  | nil => intro frags ps hf _; simpa [exprsSql] using hf
  | cons p rest ih =>
      intro frags ps hf hl
      simp only [exprsSql, exprPredSql_eq]
      refine ih _ _ ?_ ?_
      · intro f hmem
        rcases List.mem_append.mp hmem with hm | hm
        · exact hf f hm
        · rw [List.mem_singleton.mp hm]
          exact hl p (List.mem_cons_self p rest)
      · intro q hq
        exact hl q (List.mem_cons_of_mem _ hq)

theorem selectsSql_all (cfg : StmtCfg) (P : List Tok → Prop) (l : List SelectPred) :
    ∀ (frags : List (List Tok)) (ps : List String),
      (∀ f ∈ frags, P f) →
      (∀ p ∈ l,
        P (Tok.text (Stmt.quote_col_ref cfg p.field ++ " " ++ p.op ++ " (") ::
          p.sub.sqlToks ++ [Tok.text ")"])) →
      ∀ f ∈ (selectsSql cfg l frags ps).1, P f := by
  induction l with
  | nil => intro frags ps hf _; simpa [selectsSql] using hf
  | cons p rest ih =>
      intro frags ps hf hl
      simp only [selectsSql, selectPredSql_eq]
      refine ih _ _ ?_ ?_
      · intro f hmem
        rcases List.mem_append.mp hmem with hm | hm
        · exact hf f hm
        · rw [List.mem_singleton.mp hm]
          exact hl p (List.mem_cons_self p rest)
      · intro q hq
        exact hl q (List.mem_cons_of_mem _ hq)

theorem condWrap_some_ne_empty (cfg : StmtCfg) (c : WhereCondition)
    (c1 : List (List Tok)) (f : List Tok)
    (hall : ∀ g ∈ c1, renderToks (phStr cfg) g ≠ "")
    (hlen : c1.length = c.expr_count)
    (hw : condWrap c c1 = some f) :
    renderToks (phStr cfg) f ≠ "" := by
  unfold condWrap at hw
  by_cases he : c1.isEmpty
  · simp [he] at hw
  · by_cases hn : c.negate = true
    · simp [he, hn] at hw
      rw [← hw]
      exact renderToks_text_cons_ne _ _ _ (by decide)
    · by_cases h2 : 1 < c.expr_count
      · simp [he, hn, h2] at hw
        rw [← hw]
        exact renderToks_text_cons_ne _ _ _ (by decide)
      · simp [he, hn, h2] at hw
        have hne0 : c1 ≠ [] := by
          intro hx
          rw [hx] at he
          exact he rfl
        have hlen1 : c1.length = 1 := by
          have hpos : 0 < c1.length := List.length_pos.mpr hne0
          omega
        obtain ⟨g, rfl⟩ : ∃ g, c1 = [g] := by
          match c1, hlen1 with
          | [g], _ => exact ⟨g, rfl⟩
        rw [← hw]
        simpa [joinFrags] using hall g (by simp)

mutual
theorem sqlFrags_length_ne (cfg : StmtCfg) :
    ∀ (c : WhereCondition) (ps : List String) (frags : List (List Tok)) (ps' : List String),
      WhereCondition.noEmptyExprs cfg c = true →
      WhereCondition.sqlFrags cfg c ps = .ok (frags, ps') →
      frags.length = c.expr_count ∧ ∀ f ∈ frags, renderToks (phStr cfg) f ≠ ""
  | .mk o n v vr re se cs, ps, frags, ps', hne, h => by
      simp only [WhereCondition.noEmptyExprs, Bool.and_eq_true, List.all_eq_true] at hne
      obtain ⟨hre, hcs⟩ := hne
      simp only [WhereCondition.sqlFrags] at h
      cases hc : WhereConditions.sqlConds cfg cs ps with
      | error e => simp [hc, bindE_err] at h
      | ok pr =>
          obtain ⟨cf, ps1⟩ := pr
          simp only [hc, bindE_ok] at h
          cases hv : valuesSql cfg v cf ps1 with
          | error e => simp [hv, bindE_err] at h
          | ok pr2 =>
              obtain ⟨f2, ps2⟩ := pr2
              simp only [hv, bindE_ok] at h
              obtain ⟨nf2, h2, hl2, _⟩ := rawsSql_spec cfg vr f2 ps2
              obtain ⟨nf3, h3, hl3, _⟩ := exprsSql_spec cfg re (f2 ++ nf2)
                (ps2 ++ (vr.map (rawSpecParams cfg)).flatten)
              obtain ⟨nf4, h4, hl4, _⟩ := selectsSql_spec cfg se (f2 ++ nf2 ++ nf3)
                (ps2 ++ (vr.map (rawSpecParams cfg)).flatten ++
                  (re.map (exprSpecParams cfg)).flatten)
              simp only [h2, h3, h4, Except.ok.injEq, Prod.mk.injEq] at h
              obtain ⟨hcl0, hcne0⟩ := sqlConds_length_ne cfg cs ps cf ps1 hcs hc
              have hval := valuesSql_length cfg v cf ps1 f2 ps2 hv
              constructor
              · simp only [WhereCondition.expr_count]
                rw [← h.1]
                simp only [List.length_append, hl2, hl3, hl4]
                omega
              · have hallv : ∀ f ∈ f2, renderToks (phStr cfg) f ≠ "" := by
                  refine valuesSql_all cfg _ v cf ps1 f2 ps2 hv hcne0 ?_
                  intro p ps0 frag ps1' hp
                  obtain ⟨s, rest, rfl, hs⟩ := valuePredSql_shape cfg p ps0 frag ps1' hp
                  exact renderToks_text_cons_ne _ _ _ hs
                have hall2 := rawsSql_all cfg
                  (fun g => renderToks (phStr cfg) g ≠ "") vr f2 ps2 hallv
                  (fun p _ => renderToks_text_cons_ne _ _ _
                    (trailing_ne_empty _ " " (by decide)))
                simp only [h2] at hall2
                have hall3 := exprsSql_all cfg
                  (fun g => renderToks (phStr cfg) g ≠ "") re (f2 ++ nf2)
                  (ps2 ++ (vr.map (rawSpecParams cfg)).flatten) hall2
                  (fun p hp => by simpa using hre p hp)
                simp only [h3] at hall3
                have hall4 := selectsSql_all cfg
                  (fun g => renderToks (phStr cfg) g ≠ "") se (f2 ++ nf2 ++ nf3)
                  (ps2 ++ (vr.map (rawSpecParams cfg)).flatten ++
                    (re.map (exprSpecParams cfg)).flatten) hall3
                  (fun p _ => renderToks_text_cons_ne _ _ _
                    (trailing_ne_empty _ " (" (by decide)))
                simp only [h4] at hall4
                intro f hmem
                apply hall4
                rw [h.1]
                exact hmem

theorem sqlConds_length_ne (cfg : StmtCfg) :
    ∀ (cs : WhereConditions) (ps : List String) (frags : List (List Tok)) (ps' : List String),
      WhereConditions.noEmptyExprsConds cfg cs = true →
      WhereConditions.sqlConds cfg cs ps = .ok (frags, ps') →
      frags.length = WhereConditions.exprCountConds cs ∧
        ∀ f ∈ frags, renderToks (phStr cfg) f ≠ ""
  | .nil, ps, frags, ps', _, h => by
      simp only [WhereConditions.sqlConds, Except.ok.injEq, Prod.mk.injEq] at h
      rw [← h.1]
      exact ⟨rfl, by simp⟩
  | .cons c cs, ps, frags, ps', hne, h => by
      simp only [WhereConditions.noEmptyExprsConds, Bool.and_eq_true] at hne
      simp only [WhereConditions.sqlConds] at h
      cases hc : WhereCondition.sqlFrags cfg c ps with
      | error e => simp [hc, bindE_err] at h
      | ok pr =>
          obtain ⟨cf, ps1⟩ := pr
          simp only [hc, bindE_ok] at h
          cases hrest : WhereConditions.sqlConds cfg cs ps1 with
          | error e => simp [hrest, bindE_err] at h
          | ok pr2 =>
              obtain ⟨rest, ps2⟩ := pr2
              simp only [hrest, bindE_ok] at h
              obtain ⟨hcl, hcne⟩ := sqlFrags_length_ne cfg c ps cf ps1 hne.1 hc
              obtain ⟨hrl, hrne⟩ := sqlConds_length_ne cfg cs ps1 rest ps2 hne.2 hrest
              simp only [WhereConditions.exprCountConds]
              cases hw : condWrap c cf with
              | some f =>
                  have hfne : renderToks (phStr cfg) f ≠ "" :=
                    condWrap_some_ne_empty cfg c cf f hcne hcl hw
                  simp only [hw, if_neg hfne, Except.ok.injEq, Prod.mk.injEq] at h
                  rw [← h.1]
                  have hne0 : cf ≠ [] := by
                    intro hx
                    rw [hx] at hw
                    simp [condWrap] at hw
                  have hpos : 0 < c.expr_count := by
                    rw [← hcl]
                    exact List.length_pos.mpr hne0
                  have hhc : c.has_conds = true := (has_conds_pos c).mpr hpos
                  constructor
                  · simp only [List.length_cons, hhc, if_true, hrl]
                    omega
                  · intro g hg
                    rcases List.mem_cons.mp hg with rfl | hg'
                    · exact hfne
                    · exact hrne g hg'
              | none =>
                  simp only [hw, Except.ok.injEq, Prod.mk.injEq] at h
                  rw [← h.1]
                  have hcf0 : cf = [] := (condWrap_eq_none c cf).mp hw
                  have h0 : c.expr_count = 0 := by
                    rw [← hcl, hcf0]
                    rfl
                  have hhc : c.has_conds = false := by
                    cases hx : c.has_conds
                    · rfl
                    · have := (has_conds_pos c).mp hx
                      omega
                  exact ⟨by simp [hhc, hrl], hrne⟩
end

/-- C3: a rendered node wraps the joined fragment in parentheses if and
only if it holds more than one renderable expression (each non-empty child
counting as one, `expr_count`) or it is negated: for every tree whose raw
expressions render non-empty text (Python's `if cond_sql:` truthiness
check drops an empty-string child render, which only a raw expression can
produce), the fragment list length equals `expr_count`, a negated node
renders as `NOT (joined)`, a node with more than one fragment renders as
`(joined)`, and a node with exactly one fragment renders that fragment
unchanged (`joinFrags` of a singleton), at any nesting depth. -/
theorem C3_parenthesization (cfg : StmtCfg) (c : WhereCondition) (ps : List String)
    (frags : List (List Tok)) (ps' : List String)
    (hne : WhereCondition.noEmptyExprs cfg c = true)
    (h : WhereCondition.sqlFrags cfg c ps = .ok (frags, ps')) :
    frags.length = c.expr_count ∧
    WhereCondition.sql cfg c ps = .ok (
      (if frags.isEmpty then none
       else if c.negate then
         some (Tok.text "NOT (" :: joinFrags c.predStr frags ++ [Tok.text ")"])
       else if 1 < frags.length then
         some (Tok.text "(" :: joinFrags c.predStr frags ++ [Tok.text ")"])
       else some (joinFrags c.predStr frags)), ps') := by
  have hl := (sqlFrags_length_ne cfg c ps frags ps' hne h).1
  refine ⟨hl, ?_⟩
  simp only [WhereCondition.sql, h, bindE_ok, condWrap, hl]

/-- Witness for C3 at a negated two-predicate node: two fragments,
`expr_count` 2, rendered `NOT (...)`. -/
theorem C3_witness :
    WhereCondition.noEmptyExprs cfgDefault
      (.mk false true [⟨"x", .scalar (.int 1), "="⟩, ⟨"y", .scalar (.int 2), "="⟩]
        [] [] [] .nil) = true ∧
    WhereCondition.sqlFrags cfgDefault
        (.mk false true [⟨"x", .scalar (.int 1), "="⟩, ⟨"y", .scalar (.int 2), "="⟩]
          [] [] [] .nil) [] =
      .ok ([[Tok.text "`x` = ", Tok.text "1"], [Tok.text "`y` = ", Tok.text "2"]], []) ∧
    ([[Tok.text "`x` = ", Tok.text "1"], [Tok.text "`y` = ", Tok.text "2"]].length =
        (WhereCondition.mk false true
          [⟨"x", .scalar (.int 1), "="⟩, ⟨"y", .scalar (.int 2), "="⟩]
          [] [] [] .nil).expr_count ∧
      WhereCondition.sql cfgDefault
          (.mk false true [⟨"x", .scalar (.int 1), "="⟩, ⟨"y", .scalar (.int 2), "="⟩]
            [] [] [] .nil) [] =
        .ok (
          (if [[Tok.text "`x` = ", Tok.text "1"], [Tok.text "`y` = ", Tok.text "2"]].isEmpty
            then none
           else if (WhereCondition.mk false true
              [⟨"x", .scalar (.int 1), "="⟩, ⟨"y", .scalar (.int 2), "="⟩]
              [] [] [] .nil).negate then
             some (Tok.text "NOT (" ::
               joinFrags (WhereCondition.mk false true
                  [⟨"x", .scalar (.int 1), "="⟩, ⟨"y", .scalar (.int 2), "="⟩]
                  [] [] [] .nil).predStr
                 [[Tok.text "`x` = ", Tok.text "1"], [Tok.text "`y` = ", Tok.text "2"]] ++
               [Tok.text ")"])
           else if 1 < [[Tok.text "`x` = ", Tok.text "1"],
              [Tok.text "`y` = ", Tok.text "2"]].length then
             some (Tok.text "(" ::
               joinFrags (WhereCondition.mk false true
                  [⟨"x", .scalar (.int 1), "="⟩, ⟨"y", .scalar (.int 2), "="⟩]
                  [] [] [] .nil).predStr
                 [[Tok.text "`x` = ", Tok.text "1"], [Tok.text "`y` = ", Tok.text "2"]] ++
               [Tok.text ")"])
           else some (joinFrags (WhereCondition.mk false true
              [⟨"x", .scalar (.int 1), "="⟩, ⟨"y", .scalar (.int 2), "="⟩]
              [] [] [] .nil).predStr
             [[Tok.text "`x` = ", Tok.text "1"], [Tok.text "`y` = ", Tok.text "2"]])), [])) :=
  ⟨by decide, by rfl, C3_parenthesization cfgDefault _ [] _ [] (by decide) (by rfl)⟩

/-- C6: a node with no predicates and no non-empty children (`has_conds`
false) renders to `none` (Absent) — never an empty string or empty parens —
and leaves the threaded parameter list unchanged, in AND and OR modes at
any depth. -/
theorem C6_empty_absent (cfg : StmtCfg) (c : WhereCondition) (ps : List String)
    (h : c.has_conds = false) :
    WhereCondition.sql cfg c ps = .ok (none, ps) := by
  simp only [WhereCondition.sql, sqlFrags_empty cfg c ps h, bindE_ok]
  simp [condWrap]

/-- Witness for C6: an AND root holding only an empty negated OR child, and
a bare OR node, both render Absent without touching the parameter list. -/
theorem C6_witness :
    ((WhereCondition.mk false false [] [] [] []
        (.cons (.mk true true [] [] [] [] .nil) .nil)).has_conds = false ∧
      WhereCondition.sql cfgDefault
        (.mk false false [] [] [] [] (.cons (.mk true true [] [] [] [] .nil) .nil)) [] =
        .ok (none, [])) ∧
    ((WhereCondition.mk true false [] [] [] [] .nil).has_conds = false ∧
      WhereCondition.sql cfgNoPh (.mk true false [] [] [] [] .nil) ["p"] =
        .ok (none, ["p"])) :=
  ⟨⟨rfl, C6_empty_absent cfgDefault _ [] rfl⟩,
   ⟨rfl, C6_empty_absent cfgNoPh _ ["p"] rfl⟩⟩

/-- C2 counterexample: with the placeholder disabled (`cfgNoPh`), rendering
a raw-value predicate registered with bind params `("mypw",)` emits the
fragment but appends nothing to the parameter list — the bind params are
dropped, contradicting "appends ... regardless of the placeholder
setting". -/
theorem C2_counterexample :
    WhereCondition.sql cfgNoPh rawPwCond [] =
      .ok (some [Tok.text "`t1c1` = ", Tok.text "PASSWORD(", Tok.ph, Tok.text ")"], []) ∧
    ([] : List String) ≠ [(Stmt.pickle (PickleVal.str "mypw")).1] :=
  ⟨rfl, by simp⟩

/-- C2 amended: rendering a raw-value predicate with bind params emits
`quoted(field) operator raw_text` verbatim, and pickles and appends each
bind param to the parameter list exactly when the statement's placeholder
setting is enabled; with the placeholder disabled the bind params are
dropped. -/
theorem C2_amended (cfg : StmtCfg) (f : String) (toks : List Tok)
    (op : String) (vps : List PickleVal) (ps : List String) :
    WhereCondition.sql cfg (.mk false false [] [⟨f, toks, op, some vps⟩] [] [] .nil) ps =
      .ok (some (Tok.text (Stmt.quote_col_ref cfg f ++ " " ++ op ++ " ") :: toks),
        ps ++ (if cfg.phOn then vps.map (fun v => (Stmt.pickle v).1) else [])) := by
  simp only [WhereCondition.sql, WhereCondition.sqlFrags, WhereConditions.sqlConds,
    bindE_ok, valuesSql, rawsSql, rawPredSql_eq, exprsSql, selectsSql]
  simp only [condWrap, WhereCondition.expr_count, WhereConditions.exprCountConds,
    rawSpecParams, WhereCondition.negate, WhereCondition.predStr, joinFrags]
  simp [WhereCondition.isOr]

/-- C4: for a value predicate holding a non-string sequence, a sequence of
more than one element renders its inline forms joined with ", " in parens
with "=" flipped to "IN" and "<>" to "NOT IN" (`opMulti`); a one-element
sequence collapses to the lone inline value with "IN" flipped to "=" and
"NOT IN" to "<>" (`opSingle`); in particular `add_value("f", [5], "=")`
renders `` `f` = 5 `` and `add_value("f", [5,6], "=")` renders
`` `f` IN (5, 6) ``. -/
theorem C4_in_collapsing :
    (∀ (cfg : StmtCfg) (f : String) (vs : List PickleVal) (op : String)
       (ps : List String) (il : List Tok) (ps₁ : List String),
       Stmt.parameterize_values cfg (.seq vs) (some []) (some ps) = .ok (some il, some ps₁) →
       1 < vs.length →
       valuePredSql cfg ⟨f, .seq vs, op⟩ ps =
         .ok (Tok.text (Stmt.quote_col_ref cfg f ++ " " ++ opMulti op ++ " ") ::
             Tok.text "(" :: il.intersperse (Tok.text ", ") ++ [Tok.text ")"], ps₁)) ∧
    (∀ (cfg : StmtCfg) (f : String) (vs : List PickleVal) (op : String)
       (ps : List String) (t : Tok) (ps₁ : List String),
       Stmt.parameterize_values cfg (.seq vs) (some []) (some ps) = .ok (some [t], some ps₁) →
       vs.length = 1 →
       t ≠ Tok.text "NULL" → t ≠ Tok.text "NOT NULL" →
       valuePredSql cfg ⟨f, .seq vs, op⟩ ps =
         .ok ([Tok.text (Stmt.quote_col_ref cfg f ++ " " ++ opSingle op ++ " "), t], ps₁)) ∧
    sqlStr cfgDefault "?" (singleValueCond "f" (.seq [.int 5]) "=") [] =
      .ok (some "`f` = 5", []) ∧
    sqlStr cfgDefault "?" (singleValueCond "f" (.seq [.int 5]) "<>") [] =
      .ok (some "`f` <> 5", []) ∧
    sqlStr cfgDefault "?" (singleValueCond "f" (.seq [.int 5, .int 6]) "=") [] =
      .ok (some "`f` IN (5, 6)", []) ∧
    sqlStr cfgDefault "?" (singleValueCond "f" (.seq [.int 5, .int 6]) "<>") [] =
      .ok (some "`f` NOT IN (5, 6)", []) := by
  refine ⟨?_, ?_, by rfl, by rfl, by rfl, by rfl⟩
  · intro cfg f vs op ps il ps₁ h hlen
    simp only [valuePredSql, h, bindE_ok, Option.getD_some, if_pos hlen]
    have hnull : ¬(Tok.text "(" :: il.intersperse (Tok.text ", ") ++ [Tok.text ")"] =
        [Tok.text "NULL"] ∨
        Tok.text "(" :: il.intersperse (Tok.text ", ") ++ [Tok.text ")"] =
        [Tok.text "NOT NULL"]) := by
      simp [List.append_eq_nil]
    rw [if_neg hnull]
    simp [opMulti]
  · intro cfg f vs op ps t ps₁ h hlen ht1 ht2
    have hnot : ¬ 1 < vs.length := by omega
    simp only [valuePredSql, h, bindE_ok, Option.getD_some, if_neg hnot]
    have hnull : ¬([t] = [Tok.text "NULL"] ∨ [t] = [Tok.text "NOT NULL"]) := by
      simp [ht1, ht2]
    rw [if_neg hnull]
    simp [opSingle]

/-- Witness for C4 at `[5,6]` / `[5]` with both operators, discharging the
parameterization and length hypotheses. -/
theorem C4_witness :
    Stmt.parameterize_values cfgDefault (.seq [.int 5, .int 6]) (some []) (some []) =
      .ok (some [Tok.text "5", Tok.text "6"], some []) ∧
    valuePredSql cfgDefault ⟨"f", .seq [.int 5, .int 6], "="⟩ [] =
      .ok (Tok.text (Stmt.quote_col_ref cfgDefault "f" ++ " " ++ opMulti "=" ++ " ") ::
          Tok.text "(" :: [Tok.text "5", Tok.text "6"].intersperse (Tok.text ", ") ++
            [Tok.text ")"], []) ∧
    valuePredSql cfgDefault ⟨"g", .seq [.int 5], "IN"⟩ [] =
      .ok ([Tok.text (Stmt.quote_col_ref cfgDefault "g" ++ " " ++ opSingle "IN" ++ " "),
        Tok.text "5"], []) :=
  ⟨rfl,
   C4_in_collapsing.1 cfgDefault "f" [.int 5, .int 6] "=" [] [Tok.text "5", Tok.text "6"] []
     rfl (by decide),
   C4_in_collapsing.2.1 cfgDefault "g" [.int 5] "IN" [] (Tok.text "5") [] rfl rfl
     (by decide) (by decide)⟩

/-- C5: for a value predicate whose resolved right-hand literal is exactly
`NULL` or `NOT NULL` — a scalar resolving to it, or a single-element
sequence collapsing to it — the operator "=" is replaced by "IS" and "<>"
by "IS NOT" (`opNullFlip`, applied after the single-element collapse
`opSingle` for sequences) before emitting `field operator value`; in
particular `add_value("f", None)` renders `` `f` IS NULL ``,
`add_value("f", None, "<>")` renders `` `f` IS NOT NULL ``, and
`add_value("f", [None])` renders `` `f` IS NULL ``. -/
theorem C5_null_flip :
    (∀ (cfg : StmtCfg) (f : String) (v : PickleVal) (op : String)
       (ps : List String) (il : List Tok) (ps₁ : List String),
       Stmt.parameterize_values cfg (.scalar v) (some []) (some ps) = .ok (some il, some ps₁) →
       (il = [Tok.text "NULL"] ∨ il = [Tok.text "NOT NULL"]) →
       valuePredSql cfg ⟨f, .scalar v, op⟩ ps =
         .ok (Tok.text (Stmt.quote_col_ref cfg f ++ " " ++ opNullFlip op ++ " ") :: il, ps₁)) ∧
    (∀ (cfg : StmtCfg) (f : String) (vs : List PickleVal) (op : String)
       (ps : List String) (il : List Tok) (ps₁ : List String),
       Stmt.parameterize_values cfg (.seq vs) (some []) (some ps) = .ok (some il, some ps₁) →
       vs.length = 1 →
       (il = [Tok.text "NULL"] ∨ il = [Tok.text "NOT NULL"]) →
       valuePredSql cfg ⟨f, .seq vs, op⟩ ps =
         .ok (Tok.text (Stmt.quote_col_ref cfg f ++ " " ++
           opNullFlip (opSingle op) ++ " ") :: il, ps₁)) ∧
    sqlStr cfgDefault "?" (singleValueCond "f" (.scalar .null) "=") [] =
      .ok (some "`f` IS NULL", []) ∧
    sqlStr cfgDefault "?" (singleValueCond "f" (.scalar .null) "<>") [] =
      .ok (some "`f` IS NOT NULL", []) ∧
    sqlStr cfgDefault "?" (singleValueCond "f" (.seq [.null]) "=") [] =
      .ok (some "`f` IS NULL", []) := by
  refine ⟨?_, ?_, by rfl, by rfl, by rfl⟩
  · intro cfg f v op ps il ps₁ h hil
    rcases hil with rfl | rfl <;>
      simp only [valuePredSql, h, bindE_ok, Option.getD_some] <;>
      rw [if_pos (by simp)] <;>
      simp [opNullFlip]
  · intro cfg f vs op ps il ps₁ h hlen hil
    have hnot : ¬ 1 < vs.length := by omega
    rcases hil with rfl | rfl <;>
      simp only [valuePredSql, h, bindE_ok, Option.getD_some, if_neg hnot] <;>
      rw [if_pos (by simp)] <;>
      simp [opNullFlip, opSingle]

/-- Witness for C5 at `None` with "=" and at the one-element sequence
`[None]`, discharging the resolution hypotheses. -/
theorem C5_witness :
    Stmt.parameterize_values cfgDefault (.scalar .null) (some []) (some []) =
      .ok (some [Tok.text "NULL"], some []) ∧
    valuePredSql cfgDefault ⟨"f", .scalar .null, "="⟩ [] =
      .ok (Tok.text (Stmt.quote_col_ref cfgDefault "f" ++ " " ++ opNullFlip "=" ++ " ") ::
        [Tok.text "NULL"], []) ∧
    valuePredSql cfgDefault ⟨"g", .seq [.null], "="⟩ [] =
      .ok (Tok.text (Stmt.quote_col_ref cfgDefault "g" ++ " " ++
        opNullFlip (opSingle "=") ++ " ") :: [Tok.text "NULL"], []) :=
  ⟨rfl,
   C5_null_flip.1 cfgDefault "f" .null "=" [] [Tok.text "NULL"] [] rfl (Or.inl rfl),
   C5_null_flip.2.1 cfgDefault "g" [.null] "=" [] [Tok.text "NULL"] [] rfl rfl (Or.inl rfl)⟩

theorem setValue_twice (f : String) (v1 v2 : WhereValue) (op1 op2 : String) :
    ∀ l, setValue f v2 op2 (setValue f v1 op1 l) = setValue f v2 op2 l := by
  intro l
  induction l with
  | nil => simp [setValue]
  | cons p rest ih =>
      by_cases h : p.field = f
      · simp [setValue, h]
      · simp [setValue, h, ih]

/-- C7: registering a value for the same field twice on an AND-mode node is
the same as registering only the second value (the per-field dict entry is
overwritten in place — last write wins); on an OR-mode node both entries
are appended in insertion order and both render, joined by OR, as in
`(`f` = 3 OR `f` = 5)`, while the same two calls on a fresh AND node render
only `` `f` = 5 ``. -/
theorem C7_and_map_or_list :
    (∀ (c : WhereCondition) (f : String) (v1 v2 : WhereValue) (op1 op2 : String),
       c.isOr = false →
       (c.where_value f v1 op1).where_value f v2 op2 = c.where_value f v2 op2) ∧
    (∀ (c : WhereCondition) (f : String) (v1 v2 : WhereValue) (op1 op2 : String),
       c.isOr = true →
       ((c.where_value f v1 op1).where_value f v2 op2).values =
         c.values ++ [⟨f, v1, op1⟩, ⟨f, v2, op2⟩]) ∧
    sqlStr cfgDefault "?" (((WhereCondition.mk true false [] [] [] [] .nil).where_value "f"
        (.scalar (.int 3)) "=").where_value "f" (.scalar (.int 5)) "=") [] =
      .ok (some "(`f` = 3 OR `f` = 5)", []) ∧
    sqlStr cfgDefault "?" (((WhereCondition.mk false false [] [] [] [] .nil).where_value "f"
        (.scalar (.int 3)) "=").where_value "f" (.scalar (.int 5)) "=") [] =
      .ok (some "`f` = 5", []) := by
  refine ⟨?_, ?_, by rfl, by rfl⟩
  · intro c f v1 v2 op1 op2 h
    obtain ⟨o, n, v, vr, re, se, cs⟩ := c
    simp only [WhereCondition.isOr] at h
    subst h
    simp [WhereCondition.where_value, setValue_twice]
  · intro c f v1 v2 op1 op2 h
    obtain ⟨o, n, v, vr, re, se, cs⟩ := c
    simp only [WhereCondition.isOr] at h
    subst h
    simp [WhereCondition.where_value, WhereCondition.values]

/-- Witness for C7, discharging the mode hypotheses on fresh AND and OR
nodes. -/
theorem C7_witness :
    (WhereCondition.mk false false [] [] [] [] .nil).isOr = false ∧
    ((WhereCondition.mk false false [] [] [] [] .nil).where_value "f"
        (.scalar (.int 3)) "=").where_value "f" (.scalar (.int 5)) "=" =
      (WhereCondition.mk false false [] [] [] [] .nil).where_value "f"
        (.scalar (.int 5)) "=" ∧
    (WhereCondition.mk true false [] [] [] [] .nil).isOr = true ∧
    (((WhereCondition.mk true false [] [] [] [] .nil).where_value "f"
        (.scalar (.int 3)) "=").where_value "f" (.scalar (.int 5)) "=").values =
      (WhereCondition.mk true false [] [] [] [] .nil).values ++
        [⟨"f", .scalar (.int 3), "="⟩, ⟨"f", .scalar (.int 5), "="⟩] :=
  ⟨rfl,
   C7_and_map_or_list.1 (.mk false false [] [] [] [] .nil) "f" _ _ "=" "=" rfl,
   rfl,
   C7_and_map_or_list.2.1 (.mk true false [] [] [] [] .nil) "f" _ _ "=" "=" rfl⟩

theorem parameterize_scalar_ok (cfg : StmtCfg) (v : PickleVal)
    (il : Option (List Tok)) (ps : Option (List String))
    (h : il.isSome = true ∨ ps.isSome = true) :
    ∃ il' ps', Stmt.parameterize_scalar cfg v il ps = .ok (il', ps') ∧
      il'.isSome = il.isSome ∧ ps'.isSome = ps.isSome := by
  unfold Stmt.parameterize_scalar
  rcases hp : Stmt.pickle v with ⟨t, b⟩
  cases il with
  | some l =>
      cases ps with
      | some q =>
          dsimp only
          split_ifs <;> exact ⟨_, _, rfl, rfl, rfl⟩
      | none =>
          dsimp only
          split_ifs with h1 h2 <;> first
            | exact ⟨_, _, rfl, rfl, rfl⟩
            | simp at h1
  | none =>
      cases ps with
      | some q => exact ⟨_, _, rfl, rfl, rfl⟩
      | none => simp at h

theorem parameterize_list_ok (cfg : StmtCfg) (vs : List PickleVal) :
    ∀ (il : Option (List Tok)) (ps : Option (List String)),
      il.isSome = true ∨ ps.isSome = true →
      ∃ il' ps', Stmt.parameterize_list cfg vs il ps = .ok (il', ps') ∧
        il'.isSome = il.isSome ∧ ps'.isSome = ps.isSome := by
  induction vs with
  | nil => intro il ps _; exact ⟨il, ps, rfl, rfl, rfl⟩
  | cons v rest ih =>
      intro il ps h
      obtain ⟨il1, ps1, h1, hi1, hp1⟩ := parameterize_scalar_ok cfg v il ps h
      obtain ⟨il2, ps2, h2, hi2, hp2⟩ := ih il1 ps1 (by rw [hi1, hp1]; exact h)
      exact ⟨il2, ps2, by simp only [Stmt.parameterize_list, h1, bindE_ok, h2],
        by rw [hi2, hi1], by rw [hp2, hp1]⟩

/-- C9: `parameterize_values` fails fast with the "both sinks absent"
`ValueError` on every scalar when called with neither an inline sink nor a
parameter sink, and never fails when at least one sink is present. -/
theorem C9_sink_contract :
    (∀ (cfg : StmtCfg) (v : PickleVal),
       Stmt.parameterize_values cfg (.scalar v) none none = .error errBothSinksNone) ∧
    (∀ (cfg : StmtCfg) (lv : WhereValue) (il : Option (List Tok))
       (ps : Option (List String)),
       il.isSome = true ∨ ps.isSome = true →
       ∃ r, Stmt.parameterize_values cfg lv il ps = .ok r) := by
  constructor
  · intro cfg v
    unfold Stmt.parameterize_values Stmt.parameterize_scalar
    rcases hp : Stmt.pickle v with ⟨t, b⟩
    rfl
  · intro cfg lv il ps h
    cases lv with
    | scalar v =>
        obtain ⟨il', ps', h1, _, _⟩ := parameterize_scalar_ok cfg v il ps h
        exact ⟨(il', ps'), h1⟩
    | seq vs =>
        obtain ⟨il', ps', h1, _, _⟩ := parameterize_list_ok cfg vs il ps h
        exact ⟨(il', ps'), h1⟩

/-- Witness for C9: an inline sink alone, a parameter sink alone, and the
error case at a concrete scalar. -/
theorem C9_witness :
    ((some ([] : List Tok)).isSome = true ∨ (none : Option (List String)).isSome = true) ∧
    (∃ r, Stmt.parameterize_values cfgDefault (.scalar (.str "a")) (some []) none = .ok r) ∧
    (∃ r, Stmt.parameterize_values cfgNoPh (.seq [.int 1, .null]) none (some []) = .ok r) :=
  ⟨Or.inl rfl,
   C9_sink_contract.2 cfgDefault (.scalar (.str "a")) (some []) none (Or.inl rfl),
   C9_sink_contract.2 cfgNoPh (.seq [.int 1, .null]) none (some []) (Or.inr rfl)⟩

theorem valuesSql_error_of_empty_seq (cfg : StmtCfg) (l : List ValuePred) :
    ∀ (frags : List (List Tok)) (ps : List String) (p : ValuePred),
      p ∈ l → p.value = .seq [] →
      ∃ e, valuesSql cfg l frags ps = .error e := by
  induction l with
  | nil => intro frags ps p hp _; simp at hp
  | cons q rest ih =>
      intro frags ps p hp hv
      rcases List.mem_cons.mp hp with rfl | hmem
      · refine ⟨"IndexError: list index out of range", ?_⟩
        have herr : valuePredSql cfg p ps = .error "IndexError: list index out of range" := by
          obtain ⟨f, v, op⟩ := p
          simp only at hv
          subst hv
          rfl
        simp [valuesSql, herr, bindE_err]
      · cases hq : valuePredSql cfg q ps with
        | error e => exact ⟨e, by simp [valuesSql, hq, bindE_err]⟩
        | ok pr =>
            obtain ⟨frag, ps1⟩ := pr
            obtain ⟨e, he⟩ := ih (frags ++ [frag]) ps1 p hmem hv
            exact ⟨e, by simp [valuesSql, hq, bindE_ok, he]⟩

/-- C10: a node containing a value predicate whose value is an empty
non-string sequence does not render an empty IN list and does not render
Absent: `WhereCondition.sql` fails (the embedding's error branch for the
out-of-bounds `inline_values[0]` access is reached). -/
theorem C10_empty_seq_error (cfg : StmtCfg) (c : WhereCondition) (ps : List String)
    (p : ValuePred) (hp : p ∈ c.values) (hv : p.value = .seq []) :
    ∃ e, WhereCondition.sql cfg c ps = .error e := by
  obtain ⟨o, n, v, vr, re, se, cs⟩ := c
  simp only [WhereCondition.values] at hp
  cases hc : WhereConditions.sqlConds cfg cs ps with
  | error e =>
      exact ⟨e, by simp [WhereCondition.sql, WhereCondition.sqlFrags, hc, bindE_err]⟩
  | ok pr =>
      obtain ⟨cf, ps1⟩ := pr
      obtain ⟨e, he⟩ := valuesSql_error_of_empty_seq cfg v cf ps1 p hp hv
      refine ⟨e, ?_⟩
      simp [WhereCondition.sql, WhereCondition.sqlFrags, hc, bindE_ok, he, bindE_err]

/-- Witness for C10 at `add_value("f", [], "=")` on a fresh AND node. -/
theorem C10_witness :
    (⟨"f", WhereValue.seq [], "="⟩ : ValuePred) ∈ (singleValueCond "f" (.seq []) "=").values ∧
    (⟨"f", WhereValue.seq [], "="⟩ : ValuePred).value = .seq [] ∧
    ∃ e, WhereCondition.sql cfgDefault (singleValueCond "f" (.seq []) "=") [] = .error e :=
  ⟨by simp [singleValueCond, WhereCondition.values], rfl,
   C10_empty_seq_error cfgDefault (singleValueCond "f" (.seq []) "=") []
     ⟨"f", WhereValue.seq [], "="⟩
     (by simp [singleValueCond, WhereCondition.values]) rfl⟩

theorem c2d_digitChar (k : Nat) (hk : k < 10) : c2d (Nat.digitChar k) = some k := by
  interval_cases k <;> decide

/-- C8 counterexample: pickling the Python value `datetime.time(12, 34, 56,
microsecond=1)` and re-parsing with "%H:%M:%S" yields microsecond 0, not
the original value — the claim fails for values with a nonzero sub-second
component. -/
theorem C8_counterexample :
    strptimeTime ((Stmt.pickle (PickleVal.time 12 34 56 1)).1) ≠
      some (PickleVal.time 12 34 56 1) := by
  decide

/-- C8 amended: pickling a Date value, or a DateTime/Time value whose
microsecond component is zero, produces "YYYY-MM-DD",
"YYYY-MM-DD HH:MM:SS" or "HH:MM:SS" text whose re-parse with the
corresponding format recovers the original value (field ranges as Python's
`datetime` enforces them). -/
theorem C8_amended :
    (∀ y mo d, y ≤ 9999 → 1 ≤ mo → mo ≤ 12 → 1 ≤ d → d ≤ 31 →
       strptimeDate ((Stmt.pickle (.date y mo d)).1) = some (.date y mo d)) ∧
    (∀ h mi s, h ≤ 23 → mi ≤ 59 → s ≤ 59 →
       strptimeTime ((Stmt.pickle (.time h mi s 0)).1) = some (.time h mi s 0)) ∧
    (∀ y mo d h mi s, y ≤ 9999 → 1 ≤ mo → mo ≤ 12 → 1 ≤ d → d ≤ 31 →
       h ≤ 23 → mi ≤ 59 → s ≤ 59 →
       strptimeDateTime ((Stmt.pickle (.datetime y mo d h mi s 0)).1) =
         some (.datetime y mo d h mi s 0)) := by
  refine ⟨?_, ?_, ?_⟩
  · intro y mo d hy hm1 hm2 hd1 hd2
    show strptimeDate (strftimeDate y mo d) = _
    unfold strftimeDate fmt4 fmt2 strptimeDate
    simp only [List.cons_append, List.nil_append]
    rw [c2d_digitChar (y / 1000) (by omega), c2d_digitChar (y / 100 % 10) (by omega),
      c2d_digitChar (y / 10 % 10) (by omega), c2d_digitChar (y % 10) (by omega),
      c2d_digitChar (mo / 10) (by omega), c2d_digitChar (mo % 10) (by omega),
      c2d_digitChar (d / 10) (by omega), c2d_digitChar (d % 10) (by omega)]
    dsimp only
    rw [if_pos (by simp)]
    have hy' : y / 1000 * 1000 + y / 100 % 10 * 100 + y / 10 % 10 * 10 + y % 10 = y := by
      omega
    have hmo : mo / 10 * 10 + mo % 10 = mo := by omega
    have hd' : d / 10 * 10 + d % 10 = d := by omega
    simp only [hy', hmo, hd']
    rw [if_pos ⟨hm1, hm2, hd1, hd2⟩]
  · intro h mi s hh hm hs
    show strptimeTime (strftimeTime h mi s) = _
    unfold strftimeTime fmt2 strptimeTime
    simp only [List.cons_append, List.nil_append]
    rw [c2d_digitChar (h / 10) (by omega), c2d_digitChar (h % 10) (by omega),
      c2d_digitChar (mi / 10) (by omega), c2d_digitChar (mi % 10) (by omega),
      c2d_digitChar (s / 10) (by omega), c2d_digitChar (s % 10) (by omega)]
    dsimp only
    rw [if_pos (by simp)]
    have hh' : h / 10 * 10 + h % 10 = h := by omega
    have hm' : mi / 10 * 10 + mi % 10 = mi := by omega
    have hs' : s / 10 * 10 + s % 10 = s := by omega
    simp only [hh', hm', hs']
    rw [if_pos ⟨by omega, by omega, by omega⟩]
  · intro y mo d h mi s hy hm1 hm2 hd1 hd2 hh hmi hs
    show strptimeDateTime (strftimeDateTime y mo d h mi s) = _
    unfold strftimeDateTime fmt4 fmt2 strptimeDateTime
    simp only [List.cons_append, List.nil_append]
    rw [c2d_digitChar (y / 1000) (by omega), c2d_digitChar (y / 100 % 10) (by omega),
      c2d_digitChar (y / 10 % 10) (by omega), c2d_digitChar (y % 10) (by omega),
      c2d_digitChar (mo / 10) (by omega), c2d_digitChar (mo % 10) (by omega),
      c2d_digitChar (d / 10) (by omega), c2d_digitChar (d % 10) (by omega),
      c2d_digitChar (h / 10) (by omega), c2d_digitChar (h % 10) (by omega),
      c2d_digitChar (mi / 10) (by omega), c2d_digitChar (mi % 10) (by omega),
      c2d_digitChar (s / 10) (by omega), c2d_digitChar (s % 10) (by omega)]
    dsimp only
    rw [if_pos (by simp)]
    have hy' : y / 1000 * 1000 + y / 100 % 10 * 100 + y / 10 % 10 * 10 + y % 10 = y := by
      omega
    have hmo : mo / 10 * 10 + mo % 10 = mo := by omega
    have hd' : d / 10 * 10 + d % 10 = d := by omega
    have hh' : h / 10 * 10 + h % 10 = h := by omega
    have hmi' : mi / 10 * 10 + mi % 10 = mi := by omega
    have hs' : s / 10 * 10 + s % 10 = s := by omega
    simp only [hy', hmo, hd', hh', hmi', hs']
    rw [if_pos ⟨hm1, hm2, hd1, hd2, by omega, by omega, by omega⟩]

/-- Witness for C8's amended round trip at concrete values. -/
theorem C8_witness :
    strptimeDate ((Stmt.pickle (PickleVal.date 2014 3 2)).1) =
      some (PickleVal.date 2014 3 2) ∧
    strptimeTime ((Stmt.pickle (PickleVal.time 23 59 59 0)).1) =
      some (PickleVal.time 23 59 59 0) ∧
    strptimeDateTime ((Stmt.pickle (PickleVal.datetime 2014 3 2 12 13 14 0)).1) =
      some (PickleVal.datetime 2014 3 2 12 13 14 0) :=
  ⟨C8_amended.1 2014 3 2 (by omega) (by omega) (by omega) (by omega) (by omega),
   C8_amended.2.1 23 59 59 (by omega) (by omega) (by omega),
   C8_amended.2.2 2014 3 2 12 13 14 (by omega) (by omega) (by omega) (by omega)
     (by omega) (by omega) (by omega) (by omega)⟩
